import Mathlib

/-!
Verification development for the MCC DAQ hub (expression engine,
expression registry, scope trigger processor, hardware write loop).

The Python sources are shallowly embedded:
* floats are modelled as rationals (`ℚ`); the transcendental primitives of
  the host `math` library (external to the repository) are abstracted as a
  parameter `mf : String → ℚ → ℚ`, while all guards and algebraic
  operations are embedded exactly;
* dictionaries are modelled as association lists with most-recent-insert
  lookup (matching Python dict overwrite semantics);
* raising an exception is modelled by `Except.error`; module-level mutable
  state (the global variable store) is threaded explicitly and is also
  carried on the error path, matching Python semantics where mutations
  performed before a raise persist.
-/

namespace MccHub

/-- Python 3 `round` on a rational (round-half-to-even), as used in
`int(round(sample_rate_hz / expr.execution_rate_hz))`. -/
def pyRound (q : ℚ) : ℤ :=
  let f : ℤ := ⌊q⌋
  let r : ℚ := q - f
  if r < 1/2 then f
  else if 1/2 < r then f + 1
  else if f % 2 = 0 then f else f + 1

/-- Python `int(...)` on a rational: truncation toward zero. -/
def pyInt (q : ℚ) : ℤ :=
  if 0 ≤ q then ⌊q⌋ else -⌊-q⌋

/-- Python float `%`: `a % b = a - b * floor(a / b)` (sign of divisor).
Only invoked with `b ≠ 0`; the `b = 0` case is guarded in `eval_node`. -/
def pyMod (a b : ℚ) : ℚ :=
  a - b * ⌊a / b⌋

/-- Association-list lookup, first match wins.  Insertions prepend, so this
has Python-dict overwrite semantics. -/
def alookup (l : List (String × ℚ)) (k : String) : Option ℚ :=
  match l with
  | [] => none
  | (k', v) :: rest => if k' = k then some v else alookup rest k

/-- `d.get(k, default)` on a string-keyed rational dict. -/
def dictGetD (l : List (String × ℚ)) (k : String) (default : ℚ) : ℚ :=
  (alookup l k).getD default

/-- `d[k] = v` on a string-keyed rational dict (prepend = overwrite). -/
def dictSet (l : List (String × ℚ)) (k : String) (v : ℚ) : List (String × ℚ) :=
  (k, v) :: l

/-- Python list slicing `l[::k]` for `k ≥ 1` (elements at indices
`0, k, 2k, …`), via a countdown to the next kept index. -/
def sliceStepAux {α : Type} : List α → ℕ → ℕ → List α
  | [], _, _ => []
  | a :: rest, k, 0 => a :: sliceStepAux rest k (k - 1)
  | _ :: rest, k, c + 1 => sliceStepAux rest k c

def sliceStep {α : Type} (l : List α) (k : ℕ) : List α :=
  sliceStepAux l k 0

/-! ### Lexer (`expr_engine.Lexer`)

The regex pattern table is embedded as a hand-rolled matcher: patterns are
tried in the source order at the current position and the first that
matches wins, exactly as `Lexer.tokenize` iterates `PATTERNS` with
`regex.match(self.text, self.pos)`. -/

inductive TokType where
  | NUMBER | STRING | STATIC | BUTTONVAR | IDENT | DOTPROP
  | COMPARE | ASSIGN | PLUS | MINUS | MULT | DIV | MOD
  | LPAREN | RPAREN | COMMA
  deriving DecidableEq, Repr

structure Token where
  type : TokType
  value : String
  pos : ℕ := 0
  line : ℕ := 0
  deriving DecidableEq, Repr

def isDigitCh (c : Char) : Bool := '0' ≤ c ∧ c ≤ '9'

def isAlphaUnd (c : Char) : Bool :=
  ('a' ≤ c ∧ c ≤ 'z') ∨ ('A' ≤ c ∧ c ≤ 'Z') ∨ c = '_'

def isAlnumUnd (c : Char) : Bool := isAlphaUnd c ∨ isDigitCh c

def isUpperUnd (c : Char) : Bool := ('A' ≤ c ∧ c ≤ 'Z') ∨ c = '_'

/-- Python `\s` whitespace (the characters relevant to this code base). -/
def isSpaceCh (c : Char) : Bool :=
  c = ' ' ∨ c = '\t' ∨ c = '\n' ∨ c = '\r'

/-- Python `str.upper()` / `str.lower()` for the ASCII texts this grammar
admits (modelled explicitly so the kernel can evaluate them). -/
def upperChar (c : Char) : Char :=
  if 'a' ≤ c ∧ c ≤ 'z' then Char.ofNat (c.toNat - 32) else c

def lowerChar (c : Char) : Char :=
  if 'A' ≤ c ∧ c ≤ 'Z' then Char.ofNat (c.toNat + 32) else c

def pyUpper (s : String) : String := String.mk (s.toList.map upperChar)

def pyLower (s : String) : String := String.mk (s.toList.map lowerChar)

/-- Longest prefix of `cs` whose characters satisfy `p` (greedy `X+`/`X*`). -/
def takeWhileCount (p : Char → Bool) : List Char → ℕ
  | [] => 0
  | c :: rest => if p c then takeWhileCount p rest + 1 else 0

/-- Match result: consumed character count and the token value recorded
(for STRING/STATIC/BUTTONVAR/DOTPROP the captured group, else the lexeme). -/
structure LexMatch where
  consumed : ℕ
  value : String
  emit : Option TokType    -- none = skipped (whitespace / comment)

/-- `COMMENT: r"//[^\n]*"`. -/
def matchComment (cs : List Char) : Option LexMatch :=
  match cs with
  | '/' :: '/' :: rest =>
      some ⟨2 + takeWhileCount (fun c => c ≠ '\n') rest, "", none⟩
  | _ => none

/-- `NUMBER: r"\d+\.?\d*"`. -/
def matchNumber (cs : List Char) : Option LexMatch :=
  let d1 := takeWhileCount isDigitCh cs
  if d1 = 0 then none
  else
    match cs.drop d1 with
    | '.' :: rest =>
        let d2 := takeWhileCount isDigitCh rest
        some ⟨d1 + 1 + d2, String.mk (cs.take (d1 + 1 + d2)), some TokType.NUMBER⟩
    | _ => some ⟨d1, String.mk (cs.take d1), some TokType.NUMBER⟩

/-- `STRING: r'"([^"]+)"'` — the value is the capture (without quotes). -/
def matchString (cs : List Char) : Option LexMatch :=
  match cs with
  | '"' :: rest =>
      let n := takeWhileCount (fun c => c ≠ '"') rest
      if n = 0 then none
      else match rest.drop n with
        | '"' :: _ => some ⟨n + 2, String.mk (rest.take n), some TokType.STRING⟩
        | _ => none
  | _ => none

/-- Match a literal keyword prefix followed by `.` and an identifier:
`STATIC: r"static\.([a-zA-Z_][a-zA-Z0-9_]*)"` and the analogous
`BUTTONVAR` pattern.  The value is the captured identifier. -/
def matchDottedName (kw : List Char) (t : TokType) (cs : List Char) : Option LexMatch :=
  if cs.take kw.length = kw then
    match cs.drop kw.length with
    | '.' :: rest =>
        match rest with
        | c :: _ =>
            if isAlphaUnd c then
              let n := takeWhileCount isAlnumUnd rest
              some ⟨kw.length + 1 + n, String.mk (rest.take n), some t⟩
            else none
        | [] => none
    | _ => none
  else none

/-- `IDENT: r"[a-zA-Z_][a-zA-Z0-9_]*"`. -/
def matchIdent (cs : List Char) : Option LexMatch :=
  match cs with
  | c :: _ =>
      if isAlphaUnd c then
        let n := takeWhileCount isAlnumUnd cs
        some ⟨n, String.mk (cs.take n), some TokType.IDENT⟩
      else none
  | [] => none

/-- `DOTPROP: r"\.([A-Z_]+)"` — value is the captured property name. -/
def matchDotProp (cs : List Char) : Option LexMatch :=
  match cs with
  | '.' :: rest =>
      let n := takeWhileCount isUpperUnd rest
      if n = 0 then none
      else some ⟨n + 1, String.mk (rest.take n), some TokType.DOTPROP⟩
  | _ => none

/-- `COMPARE: r"(==|!=|<=|>=|<|>)"` (alternation order of the source). -/
def matchCompare (cs : List Char) : Option LexMatch :=
  match cs with
  | '=' :: '=' :: _ => some ⟨2, "==", some TokType.COMPARE⟩
  | '!' :: '=' :: _ => some ⟨2, "!=", some TokType.COMPARE⟩
  | '<' :: '=' :: _ => some ⟨2, "<=", some TokType.COMPARE⟩
  | '>' :: '=' :: _ => some ⟨2, ">=", some TokType.COMPARE⟩
  | '<' :: _ => some ⟨1, "<", some TokType.COMPARE⟩
  | '>' :: _ => some ⟨1, ">", some TokType.COMPARE⟩
  | _ => none

/-- Single-character operator patterns. -/
def matchSingle (c : Char) (t : TokType) (cs : List Char) : Option LexMatch :=
  match cs with
  | c' :: _ => if c' = c then some ⟨1, String.mk [c], some t⟩ else none
  | _ => none

/-- `WHITESPACE: r"\s+"`. -/
def matchWhitespace (cs : List Char) : Option LexMatch :=
  let n := takeWhileCount isSpaceCh cs
  if n = 0 then none else some ⟨n, "", none⟩

/-- The `Lexer.PATTERNS` table, in source order. -/
def lexPatterns : List (List Char → Option LexMatch) :=
  [matchComment,
   matchNumber,
   matchString,
   matchDottedName "static".toList TokType.STATIC,
   matchDottedName "buttonVars".toList TokType.BUTTONVAR,
   matchIdent,
   matchDotProp,
   matchCompare,
   matchSingle '=' TokType.ASSIGN,
   matchSingle '+' TokType.PLUS,
   matchSingle '-' TokType.MINUS,
   matchSingle '*' TokType.MULT,
   matchSingle '/' TokType.DIV,
   matchSingle '%' TokType.MOD,
   matchSingle '(' TokType.LPAREN,
   matchSingle ')' TokType.RPAREN,
   matchSingle ',' TokType.COMMA,
   matchWhitespace]

/-- Try the `Lexer.PATTERNS` table in source order at the head of `cs`;
first pattern that matches wins. -/
def matchPattern (cs : List Char) : Option LexMatch :=
  lexPatterns.findSome? (fun p => p cs)

/-- `pos_to_line`: index of the line containing `pos`; equivalently the
number of newline characters before `pos` in the text. -/
def posToLine (text : List Char) (pos : ℕ) : ℕ :=
  ((text.take pos).filter (fun c => c = '\n')).length

/-- The `Lexer.tokenize` scanning loop.  `fuel` only bounds the recursion;
every successful pattern consumes at least one character, so
`fuel = text.length` never runs out on real inputs. -/
def lexLoop (text : List Char) (fuel : ℕ) (pos : ℕ) (acc : List Token) :
    Except String (List Token) :=
  match fuel with
  | 0 =>
      if pos < text.length then Except.error "lexer fuel exhausted"
      else Except.ok acc.reverse
  | fuel' + 1 =>
      if pos < text.length then
        match matchPattern (text.drop pos) with
        | none =>
            Except.error ("Invalid character at position " ++ toString pos)
        | some m =>
            let consumed := max m.consumed 1
            match m.emit with
            | none => lexLoop text fuel' (pos + consumed) acc
            | some t =>
                lexLoop text fuel' (pos + consumed)
                  (⟨t, m.value, pos, posToLine text pos⟩ :: acc)
      else Except.ok acc.reverse

/-- `Lexer(text).tokenize()`. -/
def tokenize (text : String) : Except String (List Token) :=
  lexLoop text.toList text.length 0 []

/-! ### AST (`expr_engine.ASTNode`)

The Python `ASTNode{type, value, children}` is embedded as an inductive
with one constructor per node type.  `make_node` records
`line_start = line_end = current_line`, and the line numbers are only ever
read back for `ASSIGN`/`STATIC_ASSIGN` (to fill `executed_lines`), so a
single `line` field on those two constructors suffices. -/

inductive ASTNode where
  | NUMBER (v : ℚ)
  | VAR (name : String)
  | STATIC_VAR (name : String)
  | BUTTONVAR (name : String)
  | ASSIGN (name : String) (line : ℕ) (e : ASTNode)
  | STATIC_ASSIGN (name : String) (line : ℕ) (e : ASTNode)
  | DO_ASSIGN (name : String) (e : ASTNode)
  | AO_ASSIGN (name : String) (e : ASTNode)
  | SIGNAL (ref : String)
  | SIGNAL_PROP (ref : String) (prop : String)
  | PLUS (a b : ASTNode)
  | MINUS (a b : ASTNode)
  | MULT (a b : ASTNode)
  | DIV (a b : ASTNode)
  | MOD (a b : ASTNode)
  | NEGATE (a : ASTNode)
  | COMPARE (op : String) (a b : ASTNode)
  | AND (a b : ASTNode)
  | OR (a b : ASTNode)
  | NOT (a : ASTNode)
  | BLOCK (stmts : List ASTNode)
  | IF (c t e : ASTNode)
  | CALL (name : String) (args : List ASTNode)
  deriving Repr

/-! ### Parser (`expr_engine.Parser`)

Recursive descent; the mutable `self.pos` / `self.current_line` pair is the
explicit `PState`.  A `fuel` argument bounds recursion depth (the Python
original relies on the interpreter stack); every theorem quantifies over
fuel, and concrete runs use ample fuel. -/

structure PState where
  pos : ℕ
  line : ℕ
  deriving DecidableEq, Repr

def pcurrent (toks : List Token) (st : PState) : Option Token :=
  toks.get? st.pos

def ppeek (toks : List Token) (st : PState) (offset : ℕ := 1) : Option Token :=
  toks.get? (st.pos + offset)

/-- `Parser.advance`: returns the (possibly absent) current token and bumps
`pos`; `current_line` is updated only when a token was present. -/
def padvance (toks : List Token) (st : PState) : Option Token × PState :=
  match pcurrent toks st with
  | some t => (some t, ⟨st.pos + 1, t.line⟩)
  | none => (none, ⟨st.pos + 1, st.line⟩)

def tokTypeName : TokType → String
  | .NUMBER => "NUMBER" | .STRING => "STRING" | .STATIC => "STATIC"
  | .BUTTONVAR => "BUTTONVAR" | .IDENT => "IDENT" | .DOTPROP => "DOTPROP"
  | .COMPARE => "COMPARE" | .ASSIGN => "ASSIGN" | .PLUS => "PLUS"
  | .MINUS => "MINUS" | .MULT => "MULT" | .DIV => "DIV" | .MOD => "MOD"
  | .LPAREN => "LPAREN" | .RPAREN => "RPAREN" | .COMMA => "COMMA"

/-- `Parser.expect`. -/
def pexpect (toks : List Token) (st : PState) (t : TokType) :
    Except String (Token × PState) :=
  match pcurrent toks st with
  | some tok =>
      if tok.type = t then
        Except.ok (tok, (padvance toks st).2)
      else
        Except.error ("Expected " ++ tokTypeName t ++ ", got " ++ tokTypeName tok.type)
  | none => Except.error ("Expected " ++ tokTypeName t ++ ", got EOF")

/-- Is this token the (case-insensitive) keyword `kw`?  Mirrors the
repeated `token.type == 'IDENT' and token.value.upper() == KW` checks. -/
def isKw (tok : Token) (kw : String) : Bool :=
  tok.type = TokType.IDENT ∧ pyUpper tok.value = kw

/-- `float(...)` applied to a NUMBER lexeme (`\d+\.?\d*`). -/
def parseDigits (cs : List Char) : ℕ :=
  cs.foldl (fun acc c => acc * 10 + (c.toNat - '0'.toNat)) 0

def parseNumber (s : String) : ℚ :=
  match (s.toList.span (fun c => c ≠ '.')) with
  | (ip, []) => (parseDigits ip : ℚ)
  | (ip, _ :: fp) => (parseDigits ip : ℚ) + (parseDigits fp : ℚ) / (10 ^ fp.length : ℕ)

/-- `signal_ref.split(':', 1)` guarded by `':' in signal_ref`. -/
def pySplitColon (s : String) : Option (String × String) :=
  match s.toList.span (fun c => c ≠ ':') with
  | (_, []) => none
  | (before, _ :: after) => some (String.mk before, String.mk after)

/-- `node.type == 'BLOCK'`. -/
def isBlockNode : ASTNode → Bool
  | ASTNode.BLOCK _ => true
  | _ => false

/-- `is_block_if`: block-style iff a branch is a BLOCK, recursing through
ELSE-IF chains. -/
def is_block_if : ASTNode → Bool
  | ASTNode.IF _ t e =>
      isBlockNode t || isBlockNode e
      || (match e with | ASTNode.IF c' t' e' => is_block_if (ASTNode.IF c' t' e') | _ => false)
  | _ => false

mutual

/-- `Parser.parse`: statement list until EOF. -/
def parse_statements (fuel : ℕ) (toks : List Token) (st : PState) :
    Except String (List ASTNode × PState) :=
  match fuel with
  | 0 => Except.error "fuel"
  | f + 1 =>
      match pcurrent toks st with
      | none => Except.ok ([], st)
      | some _ =>
          match parse_statement f toks st with
          | Except.error e => Except.error e
          | Except.ok (stmt, st') =>
              match parse_statements f toks st' with
              | Except.error e => Except.error e
              | Except.ok (stmts, st'') => Except.ok (stmt :: stmts, st'')

/-- `Parser.parse_statement`. -/
def parse_statement (fuel : ℕ) (toks : List Token) (st : PState) :
    Except String (ASTNode × PState) :=
  match fuel with
  | 0 => Except.error "fuel"
  | f + 1 =>
      match pcurrent toks st, ppeek toks st with
      | some tok, some nxt =>
          if tok.type = TokType.IDENT ∧ nxt.type = TokType.ASSIGN then
            let (_, st1) := padvance toks st
            let (_, st2) := padvance toks st1
            match parse_or f toks st2 with
            | Except.error e => Except.error e
            | Except.ok (expr, st3) =>
                Except.ok (ASTNode.ASSIGN tok.value st3.line expr, st3)
          else if tok.type = TokType.STATIC ∧ nxt.type = TokType.ASSIGN then
            let (_, st1) := padvance toks st
            let (_, st2) := padvance toks st1
            match parse_or f toks st2 with
            | Except.error e => Except.error e
            | Except.ok (expr, st3) =>
                Except.ok (ASTNode.STATIC_ASSIGN tok.value st3.line expr, st3)
          else if tok.type = TokType.STRING ∧ nxt.type = TokType.ASSIGN then
            let (_, st1) := padvance toks st
            let (_, st2) := padvance toks st1
            match parse_or f toks st2 with
            | Except.error e => Except.error e
            | Except.ok (expr, st3) =>
                match pySplitColon tok.value with
                | some (signal_type, signal_name) =>
                    if pyUpper signal_type = "DO" then
                      Except.ok (ASTNode.DO_ASSIGN signal_name expr, st3)
                    else if pyUpper signal_type = "AO" then
                      Except.ok (ASTNode.AO_ASSIGN signal_name expr, st3)
                    else
                      -- source falls through to `return self.parse_or()`
                      -- with the assignment tokens already consumed
                      parse_or f toks st3
                | none => parse_or f toks st3
          else parse_or f toks st
      | _, _ => parse_or f toks st

/-- `Parser.parse_or` (binary loop folded left). -/
def parse_or (fuel : ℕ) (toks : List Token) (st : PState) :
    Except String (ASTNode × PState) :=
  match fuel with
  | 0 => Except.error "fuel"
  | f + 1 =>
      match parse_and f toks st with
      | Except.error e => Except.error e
      | Except.ok (left, st') => parse_or_loop f toks left st'

def parse_or_loop (fuel : ℕ) (toks : List Token) (left : ASTNode) (st : PState) :
    Except String (ASTNode × PState) :=
  match fuel with
  | 0 => Except.error "fuel"
  | f + 1 =>
      match pcurrent toks st with
      | some tok =>
          if isKw tok "OR" then
            let (_, st1) := padvance toks st
            match parse_and f toks st1 with
            | Except.error e => Except.error e
            | Except.ok (right, st2) => parse_or_loop f toks (ASTNode.OR left right) st2
          else Except.ok (left, st)
      | none => Except.ok (left, st)

def parse_and (fuel : ℕ) (toks : List Token) (st : PState) :
    Except String (ASTNode × PState) :=
  match fuel with
  | 0 => Except.error "fuel"
  | f + 1 =>
      match parse_comparison f toks st with
      | Except.error e => Except.error e
      | Except.ok (left, st') => parse_and_loop f toks left st'

def parse_and_loop (fuel : ℕ) (toks : List Token) (left : ASTNode) (st : PState) :
    Except String (ASTNode × PState) :=
  match fuel with
  | 0 => Except.error "fuel"
  | f + 1 =>
      match pcurrent toks st with
      | some tok =>
          if isKw tok "AND" then
            let (_, st1) := padvance toks st
            match parse_comparison f toks st1 with
            | Except.error e => Except.error e
            | Except.ok (right, st2) => parse_and_loop f toks (ASTNode.AND left right) st2
          else Except.ok (left, st)
      | none => Except.ok (left, st)

/-- `Parser.parse_comparison`: single, non-chained comparison. -/
def parse_comparison (fuel : ℕ) (toks : List Token) (st : PState) :
    Except String (ASTNode × PState) :=
  match fuel with
  | 0 => Except.error "fuel"
  | f + 1 =>
      match parse_additive f toks st with
      | Except.error e => Except.error e
      | Except.ok (left, st') =>
          match pcurrent toks st' with
          | some tok =>
              if tok.type = TokType.COMPARE then
                let (_, st1) := padvance toks st'
                match parse_additive f toks st1 with
                | Except.error e => Except.error e
                | Except.ok (right, st2) =>
                    Except.ok (ASTNode.COMPARE tok.value left right, st2)
              else Except.ok (left, st')
          | none => Except.ok (left, st')

def parse_additive (fuel : ℕ) (toks : List Token) (st : PState) :
    Except String (ASTNode × PState) :=
  match fuel with
  | 0 => Except.error "fuel"
  | f + 1 =>
      match parse_multiplicative f toks st with
      | Except.error e => Except.error e
      | Except.ok (left, st') => parse_additive_loop f toks left st'

def parse_additive_loop (fuel : ℕ) (toks : List Token) (left : ASTNode) (st : PState) :
    Except String (ASTNode × PState) :=
  match fuel with
  | 0 => Except.error "fuel"
  | f + 1 =>
      match pcurrent toks st with
      | some tok =>
          if tok.type = TokType.PLUS ∨ tok.type = TokType.MINUS then
            let (_, st1) := padvance toks st
            match parse_multiplicative f toks st1 with
            | Except.error e => Except.error e
            | Except.ok (right, st2) =>
                let node := if tok.type = TokType.PLUS then ASTNode.PLUS left right
                            else ASTNode.MINUS left right
                parse_additive_loop f toks node st2
          else Except.ok (left, st)
      | none => Except.ok (left, st)

def parse_multiplicative (fuel : ℕ) (toks : List Token) (st : PState) :
    Except String (ASTNode × PState) :=
  match fuel with
  | 0 => Except.error "fuel"
  | f + 1 =>
      match parse_unary f toks st with
      | Except.error e => Except.error e
      | Except.ok (left, st') => parse_multiplicative_loop f toks left st'

def parse_multiplicative_loop (fuel : ℕ) (toks : List Token) (left : ASTNode) (st : PState) :
    Except String (ASTNode × PState) :=
  match fuel with
  | 0 => Except.error "fuel"
  | f + 1 =>
      match pcurrent toks st with
      | some tok =>
          if tok.type = TokType.MULT ∨ tok.type = TokType.DIV ∨ tok.type = TokType.MOD then
            let (_, st1) := padvance toks st
            match parse_unary f toks st1 with
            | Except.error e => Except.error e
            | Except.ok (right, st2) =>
                let node := if tok.type = TokType.MULT then ASTNode.MULT left right
                            else if tok.type = TokType.DIV then ASTNode.DIV left right
                            else ASTNode.MOD left right
                parse_multiplicative_loop f toks node st2
          else Except.ok (left, st)
      | none => Except.ok (left, st)

def parse_unary (fuel : ℕ) (toks : List Token) (st : PState) :
    Except String (ASTNode × PState) :=
  match fuel with
  | 0 => Except.error "fuel"
  | f + 1 =>
      match pcurrent toks st with
      | some tok =>
          if tok.type = TokType.MINUS then
            let (_, st1) := padvance toks st
            match parse_unary f toks st1 with
            | Except.error e => Except.error e
            | Except.ok (expr, st2) => Except.ok (ASTNode.NEGATE expr, st2)
          else if isKw tok "NOT" then
            let (_, st1) := padvance toks st
            match parse_unary f toks st1 with
            | Except.error e => Except.error e
            | Except.ok (expr, st2) => Except.ok (ASTNode.NOT expr, st2)
          else parse_primary f toks st
      | none => parse_primary f toks st

/-- `Parser.parse_primary`. -/
def parse_primary (fuel : ℕ) (toks : List Token) (st : PState) :
    Except String (ASTNode × PState) :=
  match fuel with
  | 0 => Except.error "fuel"
  | f + 1 =>
      match pcurrent toks st with
      | none => Except.error "Unexpected end of expression"
      | some tok =>
          if tok.type = TokType.NUMBER then
            let (_, st1) := padvance toks st
            Except.ok (ASTNode.NUMBER (parseNumber tok.value), st1)
          else if tok.type = TokType.STRING then
            let (_, st1) := padvance toks st
            match pcurrent toks st1 with
            | some nxt =>
                if nxt.type = TokType.DOTPROP then
                  let (_, st2) := padvance toks st1
                  Except.ok (ASTNode.SIGNAL_PROP tok.value nxt.value, st2)
                else Except.ok (ASTNode.SIGNAL tok.value, st1)
            | none => Except.ok (ASTNode.SIGNAL tok.value, st1)
          else if tok.type = TokType.STATIC then
            let (_, st1) := padvance toks st
            Except.ok (ASTNode.STATIC_VAR tok.value, st1)
          else if tok.type = TokType.BUTTONVAR then
            let (_, st1) := padvance toks st
            Except.ok (ASTNode.BUTTONVAR tok.value, st1)
          else if tok.type = TokType.IDENT then
            let (_, st1) := padvance toks st
            if pyUpper tok.value = "IF" then
              parse_if f toks st1
            else
              match pcurrent toks st1 with
              | some nxt =>
                  if nxt.type = TokType.LPAREN then
                    parse_function_call f toks tok.value st1
                  else Except.ok (ASTNode.VAR tok.value, st1)
              | none => Except.ok (ASTNode.VAR tok.value, st1)
          else if tok.type = TokType.LPAREN then
            let (_, st1) := padvance toks st
            match parse_or f toks st1 with
            | Except.error e => Except.error e
            | Except.ok (expr, st2) =>
                match pexpect toks st2 TokType.RPAREN with
                | Except.error e => Except.error e
                | Except.ok (_, st3) => Except.ok (expr, st3)
          else
            Except.error ("Unexpected token: " ++ tokTypeName tok.type ++ " " ++ tok.value)

/-- `Parser.parse_if`: parse via `parse_if_without_endif`, then consume or
require ENDIF depending on `is_block_if`. -/
def parse_if (fuel : ℕ) (toks : List Token) (st : PState) :
    Except String (ASTNode × PState) :=
  match fuel with
  | 0 => Except.error "fuel"
  | f + 1 =>
      match parse_if_without_endif f toks st with
      | Except.error e => Except.error e
      | Except.ok (result, st1) =>
          let is_block_style := is_block_if result
          match pcurrent toks st1 with
          | some tok =>
              if isKw tok "ENDIF" then
                Except.ok (result, (padvance toks st1).2)
              else if is_block_style then
                Except.error ("Expected ENDIF to close multi-line IF statement, got " ++ tok.value)
              else Except.ok (result, st1)
          | none =>
              if is_block_style then
                Except.error "Expected ENDIF to close multi-line IF statement, got EOF"
              else Except.ok (result, st1)

/-- THEN-branch statement loop: collect until ELSE/ENDIF/EOF. -/
def parse_then_stmts (fuel : ℕ) (toks : List Token) (st : PState) :
    Except String (List ASTNode × PState) :=
  match fuel with
  | 0 => Except.error "fuel"
  | f + 1 =>
      match pcurrent toks st with
      | none => Except.ok ([], st)
      | some tok =>
          if isKw tok "ELSE" ∨ isKw tok "ENDIF" then Except.ok ([], st)
          else
            match parse_statement f toks st with
            | Except.error e => Except.error e
            | Except.ok (stmt, st') =>
                match parse_then_stmts f toks st' with
                | Except.error e => Except.error e
                | Except.ok (stmts, st'') => Except.ok (stmt :: stmts, st'')

/-- ELSE-branch statement loop: collect until ENDIF/EOF. -/
def parse_else_stmts (fuel : ℕ) (toks : List Token) (st : PState) :
    Except String (List ASTNode × PState) :=
  match fuel with
  | 0 => Except.error "fuel"
  | f + 1 =>
      match pcurrent toks st with
      | none => Except.ok ([], st)
      | some tok =>
          if isKw tok "ENDIF" then Except.ok ([], st)
          else
            match parse_statement f toks st with
            | Except.error e => Except.error e
            | Except.ok (stmt, st') =>
                match parse_else_stmts f toks st' with
                | Except.error e => Except.error e
                | Except.ok (stmts, st'') => Except.ok (stmt :: stmts, st'')

/-- `Parser.parse_if_without_endif`. -/
def parse_if_without_endif (fuel : ℕ) (toks : List Token) (st : PState) :
    Except String (ASTNode × PState) :=
  match fuel with
  | 0 => Except.error "fuel"
  | f + 1 =>
      match parse_or f toks st with
      | Except.error e => Except.error e
      | Except.ok (condition, st1) =>
          match pcurrent toks st1 with
          | some tok =>
              if ¬ isKw tok "THEN" then Except.error "Expected THEN after IF condition"
              else
                let st2 := (padvance toks st1).2
                match parse_then_stmts f toks st2 with
                | Except.error e => Except.error e
                | Except.ok (then_stmts, st3) =>
                    match then_stmts with
                    | [] => Except.error "Expected statement after THEN"
                    | _ =>
                        let then_expr := match then_stmts with
                          | [t] => t
                          | ts => ASTNode.BLOCK ts
                        match pcurrent toks st3 with
                        | some tok2 =>
                            if isKw tok2 "ELSE" then
                              let st4 := (padvance toks st3).2
                              match pcurrent toks st4 with
                              | some tok3 =>
                                  if isKw tok3 "IF" then
                                    let st5 := (padvance toks st4).2
                                    match parse_if_without_endif f toks st5 with
                                    | Except.error e => Except.error e
                                    | Except.ok (else_expr, st6) =>
                                        Except.ok (ASTNode.IF condition then_expr else_expr, st6)
                                  else
                                    match parse_else_stmts f toks st4 with
                                    | Except.error e => Except.error e
                                    | Except.ok (else_stmts, st6) =>
                                        match else_stmts with
                                        | [] => Except.error "Expected statement after ELSE"
                                        | [e] => Except.ok (ASTNode.IF condition then_expr e, st6)
                                        | es => Except.ok (ASTNode.IF condition then_expr (ASTNode.BLOCK es), st6)
                              | none =>
                                  match parse_else_stmts f toks st4 with
                                  | Except.error e => Except.error e
                                  | Except.ok (else_stmts, st6) =>
                                      match else_stmts with
                                      | [] => Except.error "Expected statement after ELSE"
                                      | [e] => Except.ok (ASTNode.IF condition then_expr e, st6)
                                      | es => Except.ok (ASTNode.IF condition then_expr (ASTNode.BLOCK es), st6)
                            else
                              Except.ok (ASTNode.IF condition then_expr (ASTNode.NUMBER 0), st3)
                        | none =>
                            Except.ok (ASTNode.IF condition then_expr (ASTNode.NUMBER 0), st3)
          | none => Except.error "Expected THEN after IF condition"

/-- `Parser.parse_function_call` (entered with `name` consumed and the
current token known to be LPAREN). -/
def parse_function_call (fuel : ℕ) (toks : List Token) (name : String) (st : PState) :
    Except String (ASTNode × PState) :=
  match fuel with
  | 0 => Except.error "fuel"
  | f + 1 =>
      match pexpect toks st TokType.LPAREN with
      | Except.error e => Except.error e
      | Except.ok (_, st1) =>
          match pcurrent toks st1 with
          | some tok =>
              if tok.type ≠ TokType.RPAREN then
                match parse_or f toks st1 with
                | Except.error e => Except.error e
                | Except.ok (arg, st2) =>
                    match parse_call_args f toks st2 with
                    | Except.error e => Except.error e
                    | Except.ok (args, st3) =>
                        match pexpect toks st3 TokType.RPAREN with
                        | Except.error e => Except.error e
                        | Except.ok (_, st4) =>
                            Except.ok (ASTNode.CALL name (arg :: args), st4)
              else
                match pexpect toks st1 TokType.RPAREN with
                | Except.error e => Except.error e
                | Except.ok (_, st2) => Except.ok (ASTNode.CALL name [], st2)
          | none =>
              match pexpect toks st1 TokType.RPAREN with
              | Except.error e => Except.error e
              | Except.ok (_, st2) => Except.ok (ASTNode.CALL name [], st2)

/-- Comma-separated argument loop of `parse_function_call`. -/
def parse_call_args (fuel : ℕ) (toks : List Token) (st : PState) :
    Except String (List ASTNode × PState) :=
  match fuel with
  | 0 => Except.error "fuel"
  | f + 1 =>
      match pcurrent toks st with
      | some tok =>
          if tok.type = TokType.COMMA then
            let (_, st1) := padvance toks st
            match parse_or f toks st1 with
            | Except.error e => Except.error e
            | Except.ok (arg, st2) =>
                match parse_call_args f toks st2 with
                | Except.error e => Except.error e
                | Except.ok (args, st3) => Except.ok (arg :: args, st3)
          else Except.ok ([], st)
      | none => Except.ok ([], st)

end

/-- Parse a token stream from a fresh parser state (`Parser(tokens).parse()`). -/
def parse_tokens (fuel : ℕ) (toks : List Token) : Except String (List ASTNode) :=
  match parse_statements fuel toks ⟨0, 0⟩ with
  | Except.error e => Except.error e
  | Except.ok (stmts, _) => Except.ok stmts

/-! ### Signal state and Evaluator (`expr_engine.Evaluator`)

The `signal_state` dict is embedded as a structure holding exactly the
keys the Evaluator reads (`dict.get(key, default)` becomes a total field
with the same default).  `do` is a Lean keyword, so that field is named
`do_` but models the `'do'` key. -/

structure SigEntry where
  name : String
  deriving DecidableEq, Repr

/-- A value list entry that Python inspects with `isinstance(val, dict)`. -/
inductive SigVal where
  | num (v : ℚ)
  | dict (d : List (String × ℚ))
  deriving DecidableEq, Repr

structure SignalState where
  ai_list : List SigEntry := []
  ao_list : List SigEntry := []
  tc_list : List SigEntry := []
  do_list : List SigEntry := []
  pid_list : List SigEntry := []
  math_list : List SigEntry := []
  le_list : List SigEntry := []
  expr_list : List SigEntry := []
  ai : List ℚ := []
  ao : List ℚ := []
  tc : List ℚ := []
  do_ : List ℚ := []
  pid : List (List (String × ℚ)) := []
  math : List SigVal := []
  le : List SigVal := []
  expr : List SigVal := []
  time : ℚ := 0
  sample : ℚ := 0
  buttonVars : List (String × ℚ) := []
  deriving Repr

structure CacheEntry where
  type : String
  index : ℕ
  deriving DecidableEq, Repr

/-- One namespace of `_build_signal_cache`: insert `TAG:{name} → (kind, i)`
for each list entry.  Dicts overwrite on duplicate keys, which prepending
plus first-match lookup reproduces. -/
def cacheInsertAll (tag : String) (kind : String) (entries : List SigEntry)
    (acc : List (String × CacheEntry)) : List (String × CacheEntry) :=
  entries.enum.foldl (fun acc (p : ℕ × SigEntry) =>
    (tag ++ p.2.name, CacheEntry.mk kind p.1) :: acc) acc

/-- `Evaluator._build_signal_cache`. -/
def build_signal_cache (ss : SignalState) : List (String × CacheEntry) :=
  cacheInsertAll "EXPR:" "expr" ss.expr_list
    (cacheInsertAll "LE:" "le" ss.le_list
      (cacheInsertAll "MATH:" "math" ss.math_list
        (cacheInsertAll "PID:" "pid" ss.pid_list
          (cacheInsertAll "DO:" "do" ss.do_list
            (cacheInsertAll "TC:" "tc" ss.tc_list
              (cacheInsertAll "AO:" "ao" ss.ao_list
                (cacheInsertAll "AI:" "ai" ss.ai_list [])))))))

def cacheLookup (cache : List (String × CacheEntry)) (k : String) : Option CacheEntry :=
  match cache with
  | [] => none
  | (k', v) :: rest => if k' = k then some v else cacheLookup rest k

inductive HWVal where
  | b (v : Bool)
  | f (v : ℚ)
  deriving DecidableEq, Repr

/-- One element of `Evaluator.hardware_writes`:
`{'type': ..., 'channel': ..., 'value': ...}`. -/
structure HWWrite where
  type : String
  channel : ℕ
  value : HWVal
  deriving DecidableEq, Repr

/-- The Evaluator's mutable attributes plus the module-level
`global_vars` store, threaded explicitly.  `executed_lines` is a Python
set; it is modelled as the list of insertions (only membership is ever
consumed).  `branch_paths` is keyed by `id(node)` in Python; since the
AST is a tree and the language has no loops, each IF node is evaluated at
most once per run, so the sequence of taken branches carries the same
information. -/
structure EvalSt where
  signal_state : SignalState
  local_vars : List (String × ℚ) := []
  global_vars : List (String × ℚ) := []
  hardware_writes : List HWWrite := []
  branch_paths : List String := []
  executed_lines : List ℕ := []
  signal_cache : List (String × CacheEntry) := []
  deriving Repr

/-- `Evaluator.__init__` (with empty `local_vars`). -/
def mkEvaluator (ss : SignalState) (gv : List (String × ℚ)) : EvalSt :=
  { signal_state := ss, global_vars := gv, signal_cache := build_signal_cache ss }

/-- Value-list access shared by the cache fast path: `values[idx]` when
`idx < len(values)`, else the fall-through 0.0. -/
def listValD (values : List ℚ) (idx : ℕ) : ℚ :=
  if h : idx < values.length then values.get ⟨idx, h⟩ else 0

/-- `Evaluator.resolve_signal`, fast path per cached kind. -/
def resolveCached (ss : SignalState) (c : CacheEntry) : ℚ :=
  if c.type = "ai" then listValD ss.ai c.index
  else if c.type = "ao" then listValD ss.ao c.index
  else if c.type = "tc" then listValD ss.tc c.index
  else if c.type = "do" then listValD ss.do_ c.index
  else if c.type = "pid" then
    match ss.pid.get? c.index with
    | some d => dictGetD d "out" 0
    | none => 0
  else if c.type = "math" ∨ c.type = "le" ∨ c.type = "expr" then
    let values := if c.type = "math" then ss.math else if c.type = "le" then ss.le else ss.expr
    match values.get? c.index with
    | some (SigVal.dict d) => dictGetD d "output" 0
    | some (SigVal.num v) => v
    | none => 0
  else 0

/-- `Evaluator._resolve_signal_slow`: linear scan fallback.  Returns the
first entry whose name matches (case-sensitively); missing names resolve
to 0.0. -/
def resolveSlowIn (signals : List SigEntry) (values : List SigVal) (signal_name : String) : ℚ :=
  match (signals.enum.find? (fun p => p.2.name = signal_name)) with
  | some (i, _) =>
      match values.get? i with
      | some (SigVal.num v) => v
      | some (SigVal.dict d) => dictGetD d "output" (dictGetD d "out" 0)
      | none => 0
  | none => 0

def resolve_signal_slow (ss : SignalState) (signal_ref : String) : ℚ :=
  match pySplitColon signal_ref with
  | none => 0
  | some (signal_type, signal_name) =>
      let st := pyUpper signal_type
      if st = "AI" then resolveSlowIn ss.ai_list (ss.ai.map SigVal.num) signal_name
      else if st = "AO" then resolveSlowIn ss.ao_list (ss.ao.map SigVal.num) signal_name
      else if st = "TC" then resolveSlowIn ss.tc_list (ss.tc.map SigVal.num) signal_name
      else if st = "DO" then resolveSlowIn ss.do_list (ss.do_.map SigVal.num) signal_name
      else if st = "PID" then
        -- PID without property returns `.OUT`
        match (ss.pid_list.enum.find? (fun p => p.2.name = signal_name)) with
        | some (i, _) =>
            match ss.pid.get? i with
            | some d => dictGetD d "out" 0
            | none => 0
        | none => 0
      else if st = "MATH" then resolveSlowIn ss.math_list ss.math signal_name
      else if st = "LE" then resolveSlowIn ss.le_list ss.le signal_name
      else if st = "EXPR" then resolveSlowIn ss.expr_list ss.expr signal_name
      else 0

/-- `Evaluator.resolve_signal`: cache (keyed by the *upper-cased* ref) with
slow fallback. -/
def resolve_signal (st : EvalSt) (signal_ref : String) : ℚ :=
  let cache_key := if (pySplitColon signal_ref).isSome then some (pyUpper signal_ref) else none
  match cache_key with
  | some key =>
      match cacheLookup st.signal_cache key with
      | some c => resolveCached st.signal_state c
      | none => resolve_signal_slow st.signal_state signal_ref
  | none => resolve_signal_slow st.signal_state signal_ref

/-- PID property read shared by both property paths. -/
def pidProp (d : List (String × ℚ)) (prop : String) : ℚ :=
  if prop = "OUT" then dictGetD d "out" 0
  else if prop = "U" then dictGetD d "u" 0
  else if prop = "SP" then dictGetD d "target" 0
  else if prop = "PV" then dictGetD d "pv" 0
  else if prop = "ERR" then dictGetD d "err" 0
  else if prop = "MAX" then dictGetD d "out_max" 10
  else if prop = "MIN" then dictGetD d "out_min" (-10)
  else 0

def resolve_signal_property_slow (ss : SignalState) (signal_ref : String) (prop : String) : ℚ :=
  match pySplitColon signal_ref with
  | none => 0
  | some (signal_type, signal_name) =>
      if pyUpper signal_type = "PID" then
        match (ss.pid_list.enum.find? (fun p => p.2.name = signal_name)) with
        | some (i, _) =>
            match ss.pid.get? i with
            | some d => pidProp d (pyUpper prop)
            | none => 0
        | none => 0
      else 0

/-- `Evaluator.resolve_signal_property`. -/
def resolve_signal_property (st : EvalSt) (signal_ref : String) (prop : String) : ℚ :=
  let cache_key := if (pySplitColon signal_ref).isSome then some (pyUpper signal_ref) else none
  match cache_key with
  | some key =>
      match cacheLookup st.signal_cache key with
      | some c =>
          if c.type = "pid" then
            match st.signal_state.pid.get? c.index with
            | some d => pidProp d (pyUpper prop)
            | none => 0
          else 0
      | none => resolve_signal_property_slow st.signal_state signal_ref prop
  | none => resolve_signal_property_slow st.signal_state signal_ref prop

/-- `Evaluator.FUNCTIONS` (the key set). -/
def FUNCTION_NAMES : List String :=
  ["sin", "cos", "tan", "sqrt", "abs", "log", "exp", "min", "max", "clamp"]

/-- Apply one of the builtin functions.  The transcendental primitives of
the host `math` library are abstracted by `mf`; the source-level guards
(`sqrt`/`log` domain checks) and the algebraic functions are exact.
Arity errors model Python `TypeError`/`ValueError` raises. -/
def applyFunction (mf : String → ℚ → ℚ) (name : String) (args : List ℚ) :
    Except String ℚ :=
  if name = "sin" then match args with
    | [x] => Except.ok (mf "sin" x) | _ => Except.error "TypeError: sin"
  else if name = "cos" then match args with
    | [x] => Except.ok (mf "cos" x) | _ => Except.error "TypeError: cos"
  else if name = "tan" then match args with
    | [x] => Except.ok (mf "tan" x) | _ => Except.error "TypeError: tan"
  else if name = "sqrt" then match args with
    | [x] => Except.ok (if 0 ≤ x then mf "sqrt" x else 0)
    | _ => Except.error "TypeError: sqrt"
  else if name = "abs" then match args with
    | [x] => Except.ok |x| | _ => Except.error "TypeError: abs"
  else if name = "log" then match args with
    | [x] => Except.ok (if 0 < x then mf "log" x else 0)
    | _ => Except.error "TypeError: log"
  else if name = "exp" then match args with
    | [x] => Except.ok (mf "exp" x) | _ => Except.error "TypeError: exp"
  else if name = "min" then match args with
    | [] => Except.error "min() arg is an empty sequence"
    | x :: rest => Except.ok (rest.foldl min x)
  else if name = "max" then match args with
    | [] => Except.error "max() arg is an empty sequence"
    | x :: rest => Except.ok (rest.foldl max x)
  else if name = "clamp" then match args with
    | [x, lo, hi] => Except.ok (max lo (min hi x))
    | _ => Except.error "TypeError: clamp"
  else Except.error ("Unknown function: " ++ name)

abbrev EvalRes := (Except String ℚ) × EvalSt

/-- Sequencing that keeps the state reached at a raise (Python mutations
before an exception persist; the registry only salvages `global_vars`). -/
def bindE (x : EvalRes) (k : ℚ → EvalSt → EvalRes) : EvalRes :=
  match x with
  | (Except.ok v, st) => k v st
  | (Except.error e, st) => (Except.error e, st)

/-- The comparison table of `eval_node`'s COMPARE branch (1e-9 tolerance
on equality, unknown operators fall through to 0.0). -/
def compareOp (op : String) (left right : ℚ) : ℚ :=
  if op = "<" then if left < right then 1 else 0
  else if op = "<=" then if left ≤ right then 1 else 0
  else if op = ">" then if right < left then 1 else 0
  else if op = ">=" then if right ≤ left then 1 else 0
  else if op = "==" then if |left - right| < 1/1000000000 then 1 else 0
  else if op = "!=" then if 1/1000000000 ≤ |left - right| then 1 else 0
  else 0

mutual

/-- `Evaluator.eval_node`. -/
def eval_node (mf : String → ℚ → ℚ) : ASTNode → EvalSt → EvalRes
  | ASTNode.NUMBER v, st => (Except.ok v, st)
  | ASTNode.VAR name, st =>
      (Except.ok (match alookup st.local_vars name with
        | some v => v
        | none =>
            if name = "time" then st.signal_state.time
            else if name = "sample" then st.signal_state.sample
            else 0), st)
  | ASTNode.STATIC_VAR name, st => (Except.ok (dictGetD st.global_vars name 0), st)
  | ASTNode.BUTTONVAR name, st => (Except.ok (dictGetD st.signal_state.buttonVars name 0), st)
  | ASTNode.ASSIGN name line e, st =>
      bindE (eval_node mf e st) fun v st1 =>
        (Except.ok v, { st1 with
          local_vars := dictSet st1.local_vars name v,
          executed_lines := st1.executed_lines ++ [line] })
  | ASTNode.STATIC_ASSIGN name line e, st =>
      bindE (eval_node mf e st) fun v st1 =>
        (Except.ok v, { st1 with
          global_vars := dictSet st1.global_vars name v,
          executed_lines := st1.executed_lines ++ [line] })
  | ASTNode.DO_ASSIGN name e, st =>
      bindE (eval_node mf e st) fun v st1 =>
        let w := match st1.signal_state.do_list.findIdx? (fun sig => sig.name = name) with
          | some i => [HWWrite.mk "do" i (HWVal.b (decide (1 ≤ v)))]
          | none => []
        (Except.ok v, { st1 with hardware_writes := st1.hardware_writes ++ w })
  | ASTNode.AO_ASSIGN name e, st =>
      bindE (eval_node mf e st) fun v st1 =>
        let w := match st1.signal_state.ao_list.findIdx? (fun sig => sig.name = name) with
          | some i => [HWWrite.mk "ao" i (HWVal.f v)]
          | none => []
        (Except.ok v, { st1 with hardware_writes := st1.hardware_writes ++ w })
  | ASTNode.SIGNAL ref, st => (Except.ok (resolve_signal st ref), st)
  | ASTNode.SIGNAL_PROP ref prop, st => (Except.ok (resolve_signal_property st ref prop), st)
  | ASTNode.PLUS a b, st =>
      bindE (eval_node mf a st) fun l st1 =>
        bindE (eval_node mf b st1) fun r st2 => (Except.ok (l + r), st2)
  | ASTNode.MINUS a b, st =>
      bindE (eval_node mf a st) fun l st1 =>
        bindE (eval_node mf b st1) fun r st2 => (Except.ok (l - r), st2)
  | ASTNode.MULT a b, st =>
      bindE (eval_node mf a st) fun l st1 =>
        bindE (eval_node mf b st1) fun r st2 => (Except.ok (l * r), st2)
  | ASTNode.DIV a b, st =>
      -- the right operand is evaluated first; a zero divisor short-circuits
      bindE (eval_node mf b st) fun r st1 =>
        if r = 0 then (Except.ok 0, st1)
        else bindE (eval_node mf a st1) fun l st2 => (Except.ok (l / r), st2)
  | ASTNode.MOD a b, st =>
      bindE (eval_node mf b st) fun r st1 =>
        if r = 0 then (Except.ok 0, st1)
        else bindE (eval_node mf a st1) fun l st2 => (Except.ok (pyMod l r), st2)
  | ASTNode.NEGATE a, st =>
      bindE (eval_node mf a st) fun v st1 => (Except.ok (-v), st1)
  | ASTNode.COMPARE op a b, st =>
      bindE (eval_node mf a st) fun l st1 =>
        bindE (eval_node mf b st1) fun r st2 => (Except.ok (compareOp op l r), st2)
  | ASTNode.AND a b, st =>
      -- both operands are evaluated (no short-circuit in the source)
      bindE (eval_node mf a st) fun l st1 =>
        bindE (eval_node mf b st1) fun r st2 =>
          (Except.ok (if l ≠ 0 ∧ r ≠ 0 then 1 else 0), st2)
  | ASTNode.OR a b, st =>
      bindE (eval_node mf a st) fun l st1 =>
        bindE (eval_node mf b st1) fun r st2 =>
          (Except.ok (if l ≠ 0 ∨ r ≠ 0 then 1 else 0), st2)
  | ASTNode.NOT a, st =>
      bindE (eval_node mf a st) fun v st1 =>
        (Except.ok (if v = 0 then 1 else 0), st1)
  | ASTNode.BLOCK stmts, st => eval_block mf stmts 0 st
  | ASTNode.IF c t e, st =>
      bindE (eval_node mf c st) fun cond st1 =>
        if cond ≠ 0 then
          eval_node mf t { st1 with branch_paths := st1.branch_paths ++ ["then"] }
        else
          eval_node mf e { st1 with branch_paths := st1.branch_paths ++ ["else"] }
  | ASTNode.CALL name args, st =>
      let func_name := pyLower name
      if ¬ FUNCTION_NAMES.contains func_name then
        (Except.error ("Unknown function: " ++ func_name), st)
      else
        match eval_args mf args st with
        | (Except.error e, st1) => (Except.error e, st1)
        | (Except.ok vals, st1) =>
            match applyFunction mf func_name vals with
            | Except.ok v => (Except.ok v, st1)
            | Except.error e => (Except.error e, st1)

/-- The BLOCK loop (`result = 0.0; for stmt in ...: result = eval(stmt)`),
also `Evaluator.evaluate` on the top-level statement list. -/
def eval_block (mf : String → ℚ → ℚ) : List ASTNode → ℚ → EvalSt → EvalRes
  | [], result, st => (Except.ok result, st)
  | stmt :: rest, _, st =>
      bindE (eval_node mf stmt st) fun v st1 => eval_block mf rest v st1

/-- Left-to-right evaluation of CALL arguments. -/
def eval_args (mf : String → ℚ → ℚ) : List ASTNode → EvalSt →
    (Except String (List ℚ)) × EvalSt
  | [], st => (Except.ok [], st)
  | a :: rest, st =>
      match eval_node mf a st with
      | (Except.error e, st1) => (Except.error e, st1)
      | (Except.ok v, st1) =>
          match eval_args mf rest st1 with
          | (Except.error e, st2) => (Except.error e, st2)
          | (Except.ok vs, st2) => (Except.ok (v :: vs), st2)

end

/-- `Evaluator.evaluate` on a parsed statement list, from a fresh
Evaluator. -/
def evaluate (mf : String → ℚ → ℚ) (statements : List ASTNode) (ss : SignalState)
    (gv : List (String × ℚ)) : EvalRes :=
  eval_block mf statements 0 (mkEvaluator ss gv)

/-- The tuple returned by `evaluate_expression`. -/
structure ExprOutcome where
  result : ℚ
  local_vars : List (String × ℚ)
  hardware_writes : List HWWrite
  branch_paths : List String
  executed_lines : List ℕ
  deriving Repr

/-- `expr_engine.evaluate_expression`: tokenize, parse, evaluate.  Returns
the outcome (or the raised error) together with the module-level global
store, which keeps any mutations made before a raise. -/
def evaluate_expression (mf : String → ℚ → ℚ) (expr_text : String)
    (ss : SignalState) (gv : List (String × ℚ)) :
    (Except String ExprOutcome) × List (String × ℚ) :=
  match tokenize expr_text with
  | Except.error e => (Except.error e, gv)
  | Except.ok toks =>
      match parse_tokens (1000 + 10 * toks.length) toks with
      | Except.error e => (Except.error e, gv)
      | Except.ok ast =>
          match eval_block mf ast 0 (mkEvaluator ss gv) with
          | (Except.ok result, stF) =>
              (Except.ok { result := result,
                           local_vars := stF.local_vars,
                           hardware_writes := stF.hardware_writes,
                           branch_paths := stF.branch_paths,
                           executed_lines := stF.executed_lines },
               stF.global_vars)
          | (Except.error e, stF) => (Except.error e, stF.global_vars)

/-! ### Expression registry (`expr_manager.ExpressionManager`)

`evaluate_all` is modelled with `bridge=None` (the queued-write design:
the control loop never passes a bridge, so the `if bridge and hw_writes`
block is dead there); hardware intents travel in the telemetry.  Python's
`list[i]` access is modelled with `get?/getD`-style access plus `List.set`
(total; theorems carry the length invariants the manager maintains). -/

structure ExpressionDef where
  name : String := ""
  enabled : Bool := true
  expression : String := ""
  execution_rate_hz : Option ℚ := none
  deriving Repr

/-- One telemetry dict.  Keys that a given code path does not set are
modelled by their defaults; `skipped` models the presence of the
`'skipped'` key. -/
structure Telem where
  name : String := ""
  output : ℚ := 0
  enabled : Bool := true
  error : Option String := none
  locals : List (String × ℚ) := []
  hw_writes : List HWWrite := []
  branches : List String := []
  executed_lines : List ℕ := []
  skipped : Bool := false
  deriving Repr

structure ManagerState where
  expressions : List ExpressionDef := []
  outputs : List ℚ := []
  tick_counters : List ℤ := []
  last_telemetry : List Telem := []
  deriving Repr

/-- Loop-carried state of `evaluate_all` (the manager's mutable lists, the
mutated `signal_state`, the module-level global store, and the telemetry
accumulated so far). -/
structure EvalAllAcc where
  outputs : List ℚ
  tick_counters : List ℤ
  last_telemetry : List Telem
  ss : SignalState
  gv : List (String × ℚ)
  telemetry : List Telem
  deriving Repr

/-- Helper: replace the tick-counter list. -/
def EvalAllAcc.withTicks (acc : EvalAllAcc) (t : List ℤ) : EvalAllAcc :=
  { acc with tick_counters := t }

/-- The `try/except` evaluation body of `evaluate_all`. -/
def evalAllExec (mf : String → ℚ → ℚ) (acc : EvalAllAcc) (i : ℕ)
    (expr : ExpressionDef) : EvalAllAcc :=
  match evaluate_expression mf expr.expression acc.ss acc.gv with
  | (Except.ok outcome, gv') =>
      let outputs' := acc.outputs.set i outcome.result
      let telem : Telem :=
        { name := expr.name, output := outcome.result, enabled := true, error := none,
          locals := outcome.local_vars, hw_writes := outcome.hardware_writes,
          branches := outcome.branch_paths, executed_lines := outcome.executed_lines }
      { acc with
        outputs := outputs',
        ss := { acc.ss with expr := outputs'.map SigVal.num },
        gv := gv',
        last_telemetry := acc.last_telemetry.set i telem,
        telemetry := acc.telemetry ++ [telem] }
  | (Except.error e, gv') =>
      { acc with
        outputs := acc.outputs.set i 0,
        gv := gv',
        telemetry := acc.telemetry ++
          [{ name := expr.name, output := 0, enabled := true, error := some e }] }

/-- The loop body of `evaluate_all` for index `i` and expression `expr`. -/
def evalAllStep (mf : String → ℚ → ℚ) (sample_rate_hz : ℚ)
    (acc : EvalAllAcc) (p : ℕ × ExpressionDef) : EvalAllAcc :=
  let i := p.1
  let expr := p.2
  if ¬ expr.enabled then
    { acc with
      outputs := acc.outputs.set i 0,
      tick_counters := acc.tick_counters.set i 0,
      telemetry := acc.telemetry ++
        [{ name := expr.name, output := 0, enabled := false, error := none }] }
  else
    -- decimation check
    let dec : Option ℤ := match expr.execution_rate_hz with
      | some r => if 0 < r then some (max 1 (pyRound (sample_rate_hz / r))) else none
      | none => none
    match dec with
    | some decimate =>
        let t : ℤ := (acc.tick_counters.get? i).getD 0 + 1
        if decimate ≤ t then
          evalAllExec mf (acc.withTicks (acc.tick_counters.set i 0)) i expr
        else
          -- skipped cycle: cached telemetry with the `skipped` flag
          let cached := (acc.last_telemetry.get? i).getD {}
          { acc with
            tick_counters := acc.tick_counters.set i t,
            telemetry := acc.telemetry ++ [{ cached with skipped := true }] }
    | none => evalAllExec mf acc i expr

/-- `ExpressionManager.evaluate_all`. -/
def evaluate_all (mf : String → ℚ → ℚ) (m : ManagerState) (ss : SignalState)
    (gv : List (String × ℚ)) (sample_rate_hz : ℚ) :
    ManagerState × List (String × ℚ) × List Telem :=
  let ss0 := { ss with
    expr_list := m.expressions.map (fun e => SigEntry.mk e.name),
    expr := m.outputs.map SigVal.num }
  let acc0 : EvalAllAcc :=
    { outputs := m.outputs, tick_counters := m.tick_counters,
      last_telemetry := m.last_telemetry, ss := ss0, gv := gv, telemetry := [] }
  let accF := m.expressions.enum.foldl (evalAllStep mf sample_rate_hz) acc0
  ({ m with
      outputs := accF.outputs,
      tick_counters := accF.tick_counters,
      last_telemetry := accF.last_telemetry },
   accF.gv, accF.telemetry)

/-- One control cycle's effect on the registry and global store. -/
def cycleStep (mf : String → ℚ → ℚ) (ss : SignalState) (rate : ℚ)
    (p : ManagerState × List (String × ℚ)) : ManagerState × List (String × ℚ) :=
  ((evaluate_all mf p.1 ss p.2 rate).1, (evaluate_all mf p.1 ss p.2 rate).2.1)

/-- The registry/global-store state before cycle `n+1`. -/
def cycleState (mf : String → ℚ → ℚ) (ss : SignalState) (rate : ℚ) :
    ℕ → ManagerState × List (String × ℚ) → ManagerState × List (String × ℚ)
  | 0, p => p
  | n + 1, p => cycleState mf ss rate n (cycleStep mf ss rate p)

/-- Iterate `evaluate_all` over `n` control cycles with the same base
snapshot, collecting the telemetry of each cycle (most recent last). -/
def runCycles (mf : String → ℚ → ℚ) (ss : SignalState) (sample_rate_hz : ℚ) :
    ℕ → ManagerState × List (String × ℚ) → ManagerState × List (String × ℚ) × List (List Telem)
  | 0, (m, gv) => (m, gv, [])
  | n + 1, (m, gv) =>
      let (m', gv', tel) := evaluate_all mf m ss gv sample_rate_hz
      let (mF, gvF, tels) := runCycles mf ss sample_rate_hz n (m', gv')
      (mF, gvF, tel :: tels)

/-! ### Scope trigger processor (`acq_scope.ScopeProcessor`)

`time.perf_counter()` is abstracted as the explicit argument `now`; the
`asyncio.create_task(self.broadcast(...))` side effect is modelled by
returning the sweep message (`none` = nothing broadcast).  `source_index`
is an acquisition-channel index (non-negative in every caller), typed ℕ. -/

/-- One processed sample frame.  Only the `'ai'` entry is consulted by the
trigger logic (guarded by `'ai' in sample` in the source); the rest of the
frame rides along opaquely in `payload`. -/
structure ScopeSample where
  ai : Option (List ℚ) := none
  payload : ℕ := 0
  deriving DecidableEq, Repr

/-- `ScopeTriggerState` (trigger configuration + sizing).  The sample
counts are `int`s computed by `update_sample_counts` and may be negative
only for pathological (negative) timebase settings, hence ℤ. -/
structure ScopeTriggerState where
  enabled : Bool := false
  mode : String := "auto"
  source_index : ℕ := 0
  level : ℚ := 0
  edge : String := "rising"
  position : ℤ := 50
  time_per_div : ℚ := 1/1000
  armed : Bool := true
  last_trigger_time : ℚ := 0
  last_auto_update : ℚ := 0
  max_update_rate_hz : ℚ := 200
  samples_needed : ℤ := 0
  pre_trigger_samples : ℤ := 0
  post_trigger_samples : ℤ := 0
  deriving Repr

/-- `ScopeTriggerState.update_sample_counts`. -/
def update_sample_counts (ts : ScopeTriggerState) (hw_sample_rate : ℚ) : ScopeTriggerState :=
  let total_time := ts.time_per_div * 10
  let samples_needed := pyInt (total_time * hw_sample_rate)
  let pre := pyInt ((samples_needed * ts.position : ℤ) / (100 : ℚ))
  { ts with
    samples_needed := samples_needed,
    pre_trigger_samples := pre,
    post_trigger_samples := samples_needed - pre }

structure ScopeState where
  trigger_state : ScopeTriggerState := {}
  processed_buffer : List ScopeSample := []
  stats_last_time : ℚ := 0
  stats_samples_processed : ℕ := 0
  stats_triggers_found : ℕ := 0
  deriving Repr

/-- The broadcast `scope_sweep` message. -/
structure SweepMsg where
  mode : String
  triggered : Bool
  trigger_index : ℤ
  samples : List ScopeSample
  time_per_div : ℚ
  trigger_level : ℚ := 0
  trigger_position : ℤ := 0
  deriving Repr

/-- The scan of `_detect_trigger`: walk `remaining` consecutive index
pairs starting at `i`, returning on the first edge crossing. -/
def detectLoop (ts : ScopeTriggerState) (buffer : List ScopeSample) :
    ℕ → ℕ → Bool × ℤ
  | _, 0 => (false, -1)
  | i, r + 1 =>
      let next := detectLoop ts buffer (i + 1) r
      match buffer.get? i, buffer.get? (i + 1) with
      | some prev_sample, some cur_sample =>
          match prev_sample.ai, cur_sample.ai with
          | some pai, some cai =>
              if ts.source_index < pai.length ∧ ts.source_index < cai.length then
                let prev_val := listValD pai ts.source_index
                let cur_val := listValD cai ts.source_index
                if ts.edge = "rising" then
                  if prev_val < ts.level ∧ ts.level ≤ cur_val then (true, (i : ℤ) + 1) else next
                else
                  if ts.level < prev_val ∧ cur_val ≤ ts.level then (true, (i : ℤ) + 1) else next
              else next
          | _, _ => next
      | _, _ => next

/-- `ScopeProcessor._detect_trigger`. -/
def detect_trigger (ts : ScopeTriggerState) (buffer : List ScopeSample) : Bool × ℤ :=
  if (buffer.length : ℤ) < ts.pre_trigger_samples + 10 then (false, -1)
  else
    let search_depth := min 1000 (buffer.length - 1)
    let start_idx := buffer.length - search_depth
    -- `for i in range(start_idx, len(buffer) - 1)`
    detectLoop ts buffer start_idx ((buffer.length - 1) - start_idx)

/-- The pre-decimation window `[buffer[i] for i in range(start_idx, end_idx)]`
of `_send_triggered_sweep` (bounds already verified by the caller). -/
def sweepWindow (buffer : List ScopeSample) (start_idx end_idx : ℤ) : List ScopeSample :=
  (buffer.drop start_idx.toNat).take (end_idx - start_idx).toNat

/-- `ScopeProcessor._send_triggered_sweep`: `none` models the two
`return`-without-broadcast paths (incomplete window). -/
def send_triggered_sweep (ts : ScopeTriggerState) (buffer : List ScopeSample)
    (trigger_idx : ℕ) : Option SweepMsg :=
  let start_idx : ℤ := (trigger_idx : ℤ) - ts.pre_trigger_samples
  let end_idx : ℤ := (trigger_idx : ℤ) + ts.post_trigger_samples
  if start_idx < 0 then none
  else if (buffer.length : ℤ) < end_idx then none
  else
    let sweep_samples := sweepWindow buffer start_idx end_idx
    let max_samples := 2000
    let decimation_factor :=
      if max_samples < sweep_samples.length then sweep_samples.length / max_samples else 1
    let sweep_samples' :=
      if max_samples < sweep_samples.length then sliceStep sweep_samples decimation_factor
      else sweep_samples
    some { mode := ts.mode,
           triggered := true,
           trigger_index := ((trigger_idx : ℤ) - start_idx).toNat / decimation_factor,
           samples := sweep_samples',
           time_per_div := ts.time_per_div,
           trigger_level := ts.level,
           trigger_position := ts.position }

/-- `ScopeProcessor._send_auto_update`. -/
def send_auto_update (ts : ScopeTriggerState) (buffer : List ScopeSample) : Option SweepMsg :=
  if (buffer.length : ℤ) < ts.samples_needed then none
  else
    let (triggered, trigger_idx) := detect_trigger ts buffer
    if triggered ∧ 0 ≤ trigger_idx then
      send_triggered_sweep ts buffer trigger_idx.toNat
    else
      let sweep_samples := (buffer.drop (((buffer.length : ℤ) - ts.samples_needed).toNat))
      let max_samples := 2000
      let sweep_samples' :=
        if max_samples < sweep_samples.length then
          sliceStep sweep_samples (sweep_samples.length / max_samples)
        else sweep_samples
      some { mode := "auto",
             triggered := false,
             trigger_index := -1,
             samples := sweep_samples',
             time_per_div := ts.time_per_div }

/-- Buffer extension and sizing phase of `process_samples`:
`deque(maxlen=50000).extend(samples)`, sample statistics, and the lazy
`update_sample_counts` call when sizing is still unset. -/
def scope_ingest (st : ScopeState) (samples : List ScopeSample)
    (hw_sample_rate : ℚ) : ScopeState :=
  let buf0 := st.processed_buffer ++ samples
  let buffer := buf0.drop (buf0.length - 50000)
  let st := { st with
    processed_buffer := buffer,
    stats_samples_processed := st.stats_samples_processed + samples.length }
  if st.trigger_state.samples_needed = (0 : ℤ) then
    { st with trigger_state := update_sample_counts st.trigger_state hw_sample_rate }
  else st

/-- Mode dispatch phase of `process_samples`: auto-rate-limited updates,
or armed normal/single trigger detection (single disarms after a found
trigger). -/
def scope_dispatch (st : ScopeState) (now : ℚ) : ScopeState × Option SweepMsg :=
  if st.trigger_state.mode = "auto" then
    let min_interval := 1 / st.trigger_state.max_update_rate_hz
    if min_interval ≤ now - st.trigger_state.last_auto_update then
      ({ st with trigger_state := { st.trigger_state with last_auto_update := now } },
       send_auto_update st.trigger_state st.processed_buffer)
    else (st, none)
  else if (st.trigger_state.mode = "normal" ∨ st.trigger_state.mode = "single")
          ∧ st.trigger_state.armed then
    let (triggered, trigger_idx) := detect_trigger st.trigger_state st.processed_buffer
    if triggered ∧ 0 ≤ trigger_idx then
      let msg := send_triggered_sweep st.trigger_state st.processed_buffer trigger_idx.toNat
      let st := { st with stats_triggers_found := st.stats_triggers_found + 1 }
      -- single mode disarms after any found trigger
      let st := if st.trigger_state.mode = "single" then
          { st with trigger_state := { st.trigger_state with armed := false } }
        else st
      (st, msg)
    else (st, none)
  else (st, none)

/-- Five-second statistics window reset at the end of `process_samples`. -/
def scope_stats_reset (st : ScopeState) (now : ℚ) : ScopeState :=
  if 5 < now - st.stats_last_time then
    { st with stats_samples_processed := 0, stats_triggers_found := 0,
              stats_last_time := now }
  else st

/-- `ScopeProcessor.process_samples`. -/
def process_samples (st : ScopeState) (samples : List ScopeSample)
    (hw_sample_rate : ℚ) (now : ℚ) : ScopeState × Option SweepMsg :=
  if samples.isEmpty then (st, none)
  else
    let st1 := scope_ingest st samples hw_sample_rate
    let (st2, emitted) := scope_dispatch st1 now
    (scope_stats_reset st2 now, emitted)

/-! ### Hardware write loop (`server.hardware_write_loop`)

One flush of the two intent queues.  `mcc.set_do`/`mcc.set_ao` calls are
collected as the list of physical writes issued.  The queues are
`deque(maxlen=1000)` drained by `popleft`; the inner `except IndexError:
break` also fires when `global_state.do[ch]`/`ao[ch]` is out of range,
aborting the rest of that queue's drain, which the model reproduces. -/

structure HwWriteState where
  do_writes : List (ℕ × Bool) := []
  ao_writes : List (ℕ × ℚ) := []
  last_do_written : List (ℕ × Bool) := []
  last_ao_written : List (ℕ × ℚ) := []
  do_ : List Bool := []
  ao : List ℚ := []
  deriving DecidableEq, Repr

def lookupDo (l : List (ℕ × Bool)) (ch : ℕ) : Option Bool :=
  match l with
  | [] => none
  | (c, v) :: rest => if c = ch then some v else lookupDo rest ch

def lookupAo (l : List (ℕ × ℚ)) (ch : ℕ) : Option ℚ :=
  match l with
  | [] => none
  | (c, v) :: rest => if c = ch then some v else lookupAo rest ch

/-- The `while global_state.do_writes:` drain: arguments are the queue,
`last_do_written`, the `global_state.do` mirror and the writes issued so
far; the result also carries the queue left over when an out-of-range
channel triggers the `break`. -/
def flushDoLoop : List (ℕ × Bool) → List (ℕ × Bool) → List Bool → List (ℕ × Bool) →
    List (ℕ × Bool) × List (ℕ × Bool) × List Bool × List (ℕ × Bool)
  | [], last, mirror, issued => (issued, last, mirror, [])
  | (ch, val) :: rest, last, mirror, issued =>
      -- `if last_do_written.get(ch) != val`
      if lookupDo last ch ≠ some val then
        if ch < mirror.length then
          flushDoLoop rest ((ch, val) :: last) (mirror.set ch val) (issued ++ [(ch, val)])
        else
          -- `global_state.do[ch]` raises IndexError → `break`
          -- (the `mcc.set_do` call already happened)
          (issued ++ [(ch, val)], (ch, val) :: last, mirror, rest)
      else flushDoLoop rest last mirror issued

/-- The `while global_state.ao_writes:` drain (0.001 dead-band on the
last written value, default 0). -/
def flushAoLoop : List (ℕ × ℚ) → List (ℕ × ℚ) → List ℚ → List (ℕ × ℚ) →
    List (ℕ × ℚ) × List (ℕ × ℚ) × List ℚ × List (ℕ × ℚ)
  | [], last, mirror, issued => (issued, last, mirror, [])
  | (ch, val) :: rest, last, mirror, issued =>
      -- `if abs(last_ao_written.get(ch, 0) - val) > 0.001`
      if 1/1000 < |(lookupAo last ch).getD 0 - val| then
        if ch < mirror.length then
          flushAoLoop rest ((ch, val) :: last) (mirror.set ch val) (issued ++ [(ch, val)])
        else
          (issued ++ [(ch, val)], (ch, val) :: last, mirror, rest)
      else flushAoLoop rest last mirror issued

/-- One cycle body of `hardware_write_loop`: flush DO then AO; returns the
physical writes issued by each drain and the updated shared state. -/
def hardware_write_flush (st : HwWriteState) :
    List (ℕ × Bool) × List (ℕ × ℚ) × HwWriteState :=
  let (do_issued, last_do, do_mirror, do_left) :=
    flushDoLoop st.do_writes st.last_do_written st.do_ []
  let (ao_issued, last_ao, ao_mirror, ao_left) :=
    flushAoLoop st.ao_writes st.last_ao_written st.ao []
  (do_issued, ao_issued,
   { do_writes := do_left, ao_writes := ao_left,
     last_do_written := last_do, last_ao_written := last_ao,
     do_ := do_mirror, ao := ao_mirror })

/-! ### Concrete instances used by witnesses and counterexamples -/

/-- A trivial stand-in for the abstracted `math`-library primitives. -/
def mfZero : String → ℚ → ℚ := fun _ _ => 0

/-- A snapshot with one digital-output channel named `Pump`. -/
def ssPump : SignalState := { do_list := [⟨"Pump"⟩], do_ := [0] }

def stPump : EvalSt := mkEvaluator ssPump []

def stEmpty : EvalSt := mkEvaluator {} []

/-- Registry with a failing expression (`foo(1)`, prior output 5) followed
by a healthy one (`1+2`). -/
def mgrErr : ManagerState :=
  { expressions := [⟨"A", true, "foo(1)", none⟩, ⟨"B", true, "1+2", none⟩],
    outputs := [5, 0], tick_counters := [0, 0],
    last_telemetry := [{ name := "A", output := 5 }, { name := "B" }] }

/-- Registry with one decimated expression (`7` at 30 Hz under a 100 Hz
control rate, so decimation factor 3). -/
def mgrRate : ManagerState :=
  { expressions := [⟨"R", true, "7", some 30⟩],
    outputs := [0], tick_counters := [0], last_telemetry := [{ name := "R" }] }

def sampLo : ScopeSample := { ai := some [0] }
def sampHi : ScopeSample := { ai := some [1] }

/-- Trigger sizing whose full window holds 2001 samples (`time_per_div
= 2.001 ms·1000`, 100 Hz would give it via `update_sample_counts`;
here set directly: pre 0, post 2001). -/
def tsWide : ScopeTriggerState :=
  { mode := "normal", samples_needed := 2001,
    pre_trigger_samples := 0, post_trigger_samples := 2001 }

def bufWide : List ScopeSample := List.replicate 2001 sampHi

/-- A 10-sample window split 5/5. -/
def tsTen : ScopeTriggerState :=
  { mode := "normal", samples_needed := 10,
    pre_trigger_samples := 5, post_trigger_samples := 5 }

def bufTwelve : List ScopeSample := List.replicate 12 sampHi

/-- Single-mode scope state whose pre-trigger requirement (100) exceeds
what the buffer below can provide at the trigger position. -/
def tsSingle : ScopeTriggerState :=
  { mode := "single", armed := true, level := 1/2, samples_needed := 200,
    pre_trigger_samples := 100, post_trigger_samples := 100 }

def stSingle : ScopeState := { trigger_state := tsSingle }

/-- 110 samples with a rising edge at index 1→2 (level 1/2). -/
def batchEdge : List ScopeSample := sampLo :: sampLo :: List.replicate 108 sampHi

/-- Write state whose single queued DO intent repeats the value already
physically written to channel 0. -/
def hwRedundant : HwWriteState :=
  { do_writes := [(0, true)], last_do_written := [(0, true)], do_ := [true] }

/-- Fresh write state with three identical DO intents and two identical
AO intents queued. -/
def hwFresh : HwWriteState :=
  { do_writes := [(0, true), (0, true), (0, true)],
    ao_writes := [(1, 5), (1, 5)],
    do_ := [false], ao := [0, 0] }

/-- Tokens of `1 THEN 2 ELSE IF 1 THEN y = 1 z = 2` (the body following an
`IF` keyword): outer branches are single statements, the ELSE-IF chain
holds a two-statement block, and no ENDIF follows. -/
def toksChain : List Token :=
  [⟨TokType.NUMBER, "1", 0, 0⟩, ⟨TokType.IDENT, "THEN", 0, 0⟩, ⟨TokType.NUMBER, "2", 0, 0⟩,
   ⟨TokType.IDENT, "ELSE", 0, 0⟩, ⟨TokType.IDENT, "IF", 0, 0⟩, ⟨TokType.NUMBER, "1", 0, 0⟩,
   ⟨TokType.IDENT, "THEN", 0, 0⟩, ⟨TokType.IDENT, "y", 0, 0⟩, ⟨TokType.ASSIGN, "=", 0, 0⟩,
   ⟨TokType.NUMBER, "1", 0, 0⟩, ⟨TokType.IDENT, "z", 0, 0⟩, ⟨TokType.ASSIGN, "=", 0, 0⟩,
   ⟨TokType.NUMBER, "2", 0, 0⟩]

/-- Tokens of `1 THEN x = 1 y = 2 ENDIF` (a block IF body with ENDIF). -/
def toksBlock : List Token :=
  [⟨TokType.NUMBER, "1", 0, 0⟩, ⟨TokType.IDENT, "THEN", 0, 0⟩, ⟨TokType.IDENT, "x", 0, 0⟩,
   ⟨TokType.ASSIGN, "=", 0, 0⟩, ⟨TokType.NUMBER, "1", 0, 0⟩, ⟨TokType.IDENT, "y", 0, 0⟩,
   ⟨TokType.ASSIGN, "=", 0, 0⟩, ⟨TokType.NUMBER, "2", 0, 0⟩, ⟨TokType.IDENT, "ENDIF", 0, 0⟩]

/-- Normal-mode scope state that is not armed. -/
def stDisarmed : ScopeState := { trigger_state := { mode := "normal", armed := false } }

/-- The message `_send_triggered_sweep` broadcasts for `tsWide`/`bufWide`
at trigger index 0. -/
def msgWide : SweepMsg :=
  { mode := "normal", triggered := true, trigger_index := 0,
    samples := sliceStep bufWide 1, time_per_div := 1/1000,
    trigger_level := 0, trigger_position := 50 }

def exprA : ExpressionDef := { name := "A", enabled := true, expression := "foo(1)" }

def exprB : ExpressionDef := { name := "B", enabled := true, expression := "1+2" }

/-- Mid-pass accumulator whose next expression (`foo(1)`) will raise. -/
def accErr : EvalAllAcc :=
  { outputs := [5, 0], tick_counters := [0, 0],
    last_telemetry := [{ name := "A", output := 5 }, { name := "B" }],
    ss := {}, gv := [], telemetry := [] }

/-- Tokens of `0 THEN 5` (an inline IF body with no ELSE). -/
def toksNoElse : List Token :=
  [⟨TokType.NUMBER, "0", 0, 0⟩, ⟨TokType.IDENT, "THEN", 0, 0⟩, ⟨TokType.NUMBER, "5", 0, 0⟩]

/-! ## Theorems -/

/-- C7: for every pair of operand expressions whose divisor evaluates to
0, `a/b` and `a%b` evaluate to exactly 0.0 without raising: the divisor is
evaluated first, the zero guard returns 0.0 and the dividend is not even
evaluated, so no exception and no non-finite value can arise. -/
theorem div_mod_by_zero_spec (mf : String → ℚ → ℚ) (a b : ASTNode) (st st1 : EvalSt)
    (h : eval_node mf b st = (Except.ok 0, st1)) :
    eval_node mf (ASTNode.DIV a b) st = (Except.ok 0, st1) ∧
    eval_node mf (ASTNode.MOD a b) st = (Except.ok 0, st1) := by
  constructor <;> simp [eval_node, bindE, h]

theorem div_mod_by_zero_spec_witness :
    eval_node mfZero (ASTNode.DIV (ASTNode.NUMBER 1) (ASTNode.NUMBER 0)) stEmpty
      = (Except.ok 0, stEmpty) ∧
    eval_node mfZero (ASTNode.MOD (ASTNode.NUMBER 1) (ASTNode.NUMBER 0)) stEmpty
      = (Except.ok 0, stEmpty) :=
  div_mod_by_zero_spec mfZero (ASTNode.NUMBER 1) (ASTNode.NUMBER 0) stEmpty stEmpty rfl

/-- C10: a `"DO:name" = expr` statement always evaluates to the
unconverted value of `expr`; when a digital-output channel matches the
name, it queues a boolean write obtained with the threshold `value ≥ 1.0`
(so a value strictly between 0 and 1 queues `false`), and when no channel
matches, no write intent is recorded and the state is unchanged. -/
theorem do_write_spec (mf : String → ℚ → ℚ) (name : String) (e : ASTNode)
    (st st1 : EvalSt) (v : ℚ) (h : eval_node mf e st = (Except.ok v, st1)) :
    (eval_node mf (ASTNode.DO_ASSIGN name e) st).1 = Except.ok v ∧
    (∀ i, st1.signal_state.do_list.findIdx? (fun sig => sig.name = name) = some i →
        (eval_node mf (ASTNode.DO_ASSIGN name e) st).2.hardware_writes
          = st1.hardware_writes ++ [HWWrite.mk "do" i (HWVal.b (decide (1 ≤ v)))]) ∧
    (0 < v → v < 1 → decide (1 ≤ v) = false) ∧
    (st1.signal_state.do_list.findIdx? (fun sig => sig.name = name) = none →
        eval_node mf (ASTNode.DO_ASSIGN name e) st = (Except.ok v, st1)) := by
  refine ⟨?_, ?_, ?_, ?_⟩
  · cases hf : st1.signal_state.do_list.findIdx? (fun sig => sig.name = name) <;>
      simp [eval_node, bindE, h, hf]
  · intro i hf
    simp [eval_node, bindE, h, hf]
  · intro h1 h2
    simp
    linarith
  · intro hf
    simp [eval_node, bindE, h, hf]

theorem do_write_spec_witness :
    (eval_node mfZero (ASTNode.DO_ASSIGN "Pump" (ASTNode.NUMBER (1/2))) stPump).1
      = Except.ok (1/2) ∧
    (eval_node mfZero (ASTNode.DO_ASSIGN "Pump" (ASTNode.NUMBER (1/2))) stPump).2.hardware_writes
      = [HWWrite.mk "do" 0 (HWVal.b false)] := by
  have h := do_write_spec mfZero "Pump" (ASTNode.NUMBER (1/2)) stPump stPump (1/2) rfl
  refine ⟨h.1, ?_⟩
  have h2 := h.2.1 0 (by rfl)
  rw [h2]
  norm_num [stPump, mkEvaluator]

/-- C9: an IF whose token stream contains no ELSE keyword parses to an IF
node whose else branch is the constant `NUMBER 0.0`, and evaluating any IF
with a constant-0 else branch under a false (zero) condition yields
exactly 0.0 (recording the `else` branch).  The parser clause covers both
inline and block forms, since both shapes go through
`parse_if_without_endif`, which inserts the default. -/
theorem if_default_else_spec :
    (∀ (f : ℕ) (toks : List Token) (st : PState) (node : ASTNode) (st' : PState),
       (∀ t ∈ toks, isKw t "ELSE" = false) →
       parse_if_without_endif f toks st = Except.ok (node, st') →
       ∃ c tb, node = ASTNode.IF c tb (ASTNode.NUMBER 0)) ∧
    (∀ (mf : String → ℚ → ℚ) (c t : ASTNode) (st st1 : EvalSt),
       eval_node mf c st = (Except.ok 0, st1) →
       eval_node mf (ASTNode.IF c t (ASTNode.NUMBER 0)) st =
         (Except.ok 0, { st1 with branch_paths := st1.branch_paths ++ ["else"] })) := by
  constructor
  · intro f toks st node st' hno h
    cases f with
    | zero => simp [parse_if_without_endif] at h
    | succ f =>
        unfold parse_if_without_endif at h
        split at h
        · simp at h
        · split at h
          · split at h
            · simp at h
            · dsimp only at h
              split at h
              · simp at h
              · split at h
                · simp at h
                · split at h
                  · rename_i tok2 hcur2
                    split at h
                    · rename_i helse
                      have := hno tok2 (List.get?_mem hcur2)
                      simp [this] at helse
                    · obtain ⟨h1, _⟩ := Prod.mk.injEq .. ▸ Except.ok.inj h
                      exact ⟨_, _, h1.symm⟩
                  · obtain ⟨h1, _⟩ := Prod.mk.injEq .. ▸ Except.ok.inj h
                    exact ⟨_, _, h1.symm⟩
          · simp at h
  · intro mf c t st st1 h
    simp [eval_node, bindE, h]

theorem if_default_else_spec_witness :
    (∃ c tb, ASTNode.IF (ASTNode.NUMBER (parseNumber "0"))
        (ASTNode.NUMBER (parseNumber "5")) (ASTNode.NUMBER 0) = ASTNode.IF c tb (ASTNode.NUMBER 0)) ∧
    eval_node mfZero (ASTNode.IF (ASTNode.NUMBER 0) (ASTNode.NUMBER 5) (ASTNode.NUMBER 0)) stEmpty
      = (Except.ok 0, { stEmpty with branch_paths := stEmpty.branch_paths ++ ["else"] }) :=
  ⟨if_default_else_spec.1 30 toksNoElse ⟨0, 0⟩ _ ⟨3, 0⟩ (by decide) rfl,
   if_default_else_spec.2 mfZero (ASTNode.NUMBER 0) (ASTNode.NUMBER 5) stEmpty stEmpty rfl⟩

/-- C6 (amended): after `parse_if_without_endif` yields an IF node,
`parse_if` consumes a following ENDIF and succeeds; without a following
ENDIF it fails exactly when `is_block_if` holds (which is forced whenever
the THEN or ELSE branch is a multi-statement BLOCK) and succeeds when
`is_block_if` is false.  (The unamended claim — every IF whose branches
are each a single statement parses without ENDIF — fails for ELSE-IF
chains carrying an inner block; see the counterexample.) -/
theorem block_if_endif_spec (f : ℕ) (toks : List Token) (st : PState)
    (c t e : ASTNode) (st2 : PState)
    (h : parse_if_without_endif f toks st = Except.ok (ASTNode.IF c t e, st2)) :
    (∀ tok, pcurrent toks st2 = some tok → isKw tok "ENDIF" = true →
        parse_if (f + 1) toks st = Except.ok (ASTNode.IF c t e, (padvance toks st2).2)) ∧
    ((∀ tok, pcurrent toks st2 = some tok → isKw tok "ENDIF" = false) →
        (is_block_if (ASTNode.IF c t e) = true →
            ∃ msg, parse_if (f + 1) toks st = Except.error msg) ∧
        (is_block_if (ASTNode.IF c t e) = false →
            parse_if (f + 1) toks st = Except.ok (ASTNode.IF c t e, st2))) ∧
    (isBlockNode t = true ∨ isBlockNode e = true → is_block_if (ASTNode.IF c t e) = true) := by
  refine ⟨?_, ?_, ?_⟩
  · intro tok hcur hkw
    simp [parse_if, h, hcur, hkw]
  · intro hno
    constructor
    · intro hblock
      cases hcur : pcurrent toks st2 with
      | none =>
          exact ⟨"Expected ENDIF to close multi-line IF statement, got EOF",
            by simp [parse_if, h, hcur, hblock]⟩
      | some tok =>
          exact ⟨"Expected ENDIF to close multi-line IF statement, got " ++ tok.value,
            by simp [parse_if, h, hcur, hno tok hcur, hblock]⟩
    · intro hblock
      cases hcur : pcurrent toks st2 with
      | none => simp [parse_if, h, hcur, hblock]
      | some tok => simp [parse_if, h, hcur, hno tok hcur, hblock]
  · intro hb
    unfold is_block_if
    rcases hb with hb | hb <;> simp [hb]

/-- C6 counterexample: `IF 1 THEN 2 ELSE IF 1 THEN y = 1 z = 2` has
single-statement THEN and ELSE branches at the outer IF, yet parsing
without a trailing ENDIF raises a SyntaxError, contradicting the claim
that such an IF parses both with and without ENDIF. -/
theorem block_if_endif_counterexample :
    (∃ c t e st2, parse_if_without_endif 30 toksChain ⟨0, 0⟩
        = Except.ok (ASTNode.IF c t e, st2) ∧
       isBlockNode t = false ∧ isBlockNode e = false) ∧
    parse_if 31 toksChain ⟨0, 0⟩
      = Except.error "Expected ENDIF to close multi-line IF statement, got EOF" :=
  ⟨⟨_, _, _, _, rfl, rfl, rfl⟩, rfl⟩

theorem block_if_endif_spec_witness :
    parse_if 31 toksBlock ⟨0, 0⟩ =
      Except.ok (ASTNode.IF (ASTNode.NUMBER (parseNumber "1"))
        (ASTNode.BLOCK [ASTNode.ASSIGN "x" 0 (ASTNode.NUMBER (parseNumber "1")),
                        ASTNode.ASSIGN "y" 0 (ASTNode.NUMBER (parseNumber "2"))])
        (ASTNode.NUMBER 0), (⟨9, 0⟩ : PState)) := by
  have h := block_if_endif_spec 30 toksBlock ⟨0, 0⟩ _ _ _ ⟨8, 0⟩ rfl
  exact h.1 ⟨TokType.IDENT, "ENDIF", 0, 0⟩ rfl rfl

theorem sliceStepAux_one {α : Type} : ∀ l : List α, sliceStepAux l 1 0 = l
  | [] => by simp [sliceStepAux]
  | a :: rest => by simp [sliceStepAux, sliceStepAux_one rest]

theorem sliceStep_one {α : Type} (l : List α) : sliceStep l 1 = l :=
  sliceStepAux_one l

theorem sliceStepAux_length {α : Type} (k : ℕ) (hk : 1 ≤ k) :
    ∀ (l : List α) (c : ℕ), (sliceStepAux l k c).length = (l.length - c + k - 1) / k := by
  intro l
  induction l with
  | nil => intro c; simp [sliceStepAux, Nat.div_eq_of_lt (by omega : k - 1 < k)]
  | cons a rest ih =>
      intro c
      cases c with
      | zero =>
          simp only [sliceStepAux, List.length_cons, ih (k - 1)]
          rcases Nat.le_total (k - 1) rest.length with hle | hle
          · have h1 : rest.length - (k - 1) + k - 1 = rest.length := by omega
            have h2 : rest.length + 1 - 0 + k - 1 = rest.length + k := by omega
            rw [h1, h2, Nat.add_div_right _ (by omega : 0 < k)]
          · have h1 : rest.length - (k - 1) = 0 := by omega
            have h2 : rest.length + 1 - 0 + k - 1 = rest.length + k := by omega
            rw [h1, h2, Nat.add_div_right _ (by omega : 0 < k),
                Nat.div_eq_of_lt (by omega : 0 + k - 1 < k),
                Nat.div_eq_of_lt (by omega : rest.length < k)]
      | succ c =>
          simp only [sliceStepAux, List.length_cons, ih c]
          congr 1
          omega

theorem sliceStep_length {α : Type} (l : List α) (k : ℕ) (hk : 1 ≤ k) :
    (sliceStep l k).length = (l.length + k - 1) / k := by
  rw [sliceStep, sliceStepAux_length k hk l 0, Nat.sub_zero]

theorem sweepWindow_length (buffer : List ScopeSample) (s e : ℤ)
    (hs : 0 ≤ s) (he : e ≤ (buffer.length : ℤ)) :
    (sweepWindow buffer s e).length = (e - s).toNat := by
  simp [sweepWindow, List.length_take, List.length_drop]
  omega

theorem ceil_div_stride_bound (n : ℕ) (hn : 2000 < n) :
    (n + n / 2000 - 1) / (n / 2000) ≤ 3999 := by
  have h1 : 1 ≤ n / 2000 := (Nat.one_le_div_iff (by norm_num)).2 (le_of_lt hn)
  have h2 := Nat.div_add_mod n 2000
  have h3 : n % 2000 < 2000 := Nat.mod_lt _ (by norm_num)
  have h4 : (n + n / 2000 - 1) / (n / 2000) < 4000 := by
    rw [Nat.div_lt_iff_lt_mul (by omega : 0 < n / 2000)]
    omega
  omega

/-- C3: `update_sample_counts` keeps `samples_needed = pre + post`; a
triggered sweep is emitted only when the buffer holds at least
`pre_trigger_samples` before the trigger index and `post_trigger_samples`
at and after it; a candidate without the full window is skipped (none is
broadcast); and an emitted sweep's pre-decimation window holds exactly
`samples_needed` samples (under the sizing invariants, which
`update_sample_counts` establishes for non-negative timebase). -/
theorem trigger_window_spec :
    (∀ (ts : ScopeTriggerState) (rate : ℚ),
        (update_sample_counts ts rate).pre_trigger_samples
          + (update_sample_counts ts rate).post_trigger_samples
          = (update_sample_counts ts rate).samples_needed) ∧
    (∀ (ts : ScopeTriggerState) (buffer : List ScopeSample) (idx : ℕ) (msg : SweepMsg),
        send_triggered_sweep ts buffer idx = some msg →
        ts.pre_trigger_samples ≤ (idx : ℤ) ∧
        (idx : ℤ) + ts.post_trigger_samples ≤ (buffer.length : ℤ)) ∧
    (∀ (ts : ScopeTriggerState) (buffer : List ScopeSample) (idx : ℕ),
        ((idx : ℤ) < ts.pre_trigger_samples ∨
         (buffer.length : ℤ) < (idx : ℤ) + ts.post_trigger_samples) →
        send_triggered_sweep ts buffer idx = none) ∧
    (∀ (ts : ScopeTriggerState) (buffer : List ScopeSample) (idx : ℕ) (msg : SweepMsg),
        send_triggered_sweep ts buffer idx = some msg →
        ts.samples_needed = ts.pre_trigger_samples + ts.post_trigger_samples →
        0 ≤ ts.pre_trigger_samples → 0 ≤ ts.post_trigger_samples →
        (sweepWindow buffer ((idx : ℤ) - ts.pre_trigger_samples)
            ((idx : ℤ) + ts.post_trigger_samples)).length = ts.samples_needed.toNat) := by
  have hbounds : ∀ (ts : ScopeTriggerState) (buffer : List ScopeSample) (idx : ℕ) (msg : SweepMsg),
      send_triggered_sweep ts buffer idx = some msg →
      ts.pre_trigger_samples ≤ (idx : ℤ) ∧
      (idx : ℤ) + ts.post_trigger_samples ≤ (buffer.length : ℤ) := by
    intro ts buffer idx msg h
    unfold send_triggered_sweep at h
    dsimp only at h
    split at h
    · simp at h
    · split at h
      · simp at h
      · rename_i h1 h2
        constructor <;> omega
  refine ⟨?_, hbounds, ?_, ?_⟩
  · intro ts rate
    simp [update_sample_counts]
  · intro ts buffer idx hbad
    unfold send_triggered_sweep
    dsimp only
    split
    · rfl
    · split
      · rfl
      · rename_i h1 h2
        exfalso
        omega
  · intro ts buffer idx msg h hsn hpre hpost
    obtain ⟨h1, h2⟩ := hbounds ts buffer idx msg h
    rw [sweepWindow_length buffer _ _ (by omega) (by omega)]
    omega

theorem trigger_window_spec_witness :
    (tsTen.pre_trigger_samples ≤ (6 : ℤ) ∧
      (6 : ℤ) + tsTen.post_trigger_samples ≤ (bufTwelve.length : ℤ)) ∧
    (sweepWindow bufTwelve ((6 : ℤ) - tsTen.pre_trigger_samples)
        ((6 : ℤ) + tsTen.post_trigger_samples)).length = tsTen.samples_needed.toNat :=
  ⟨trigger_window_spec.2.1 tsTen bufTwelve 6 _ rfl,
   trigger_window_spec.2.2.2 tsTen bufTwelve 6 _ rfl rfl (by decide) (by decide)⟩

/-- C2 (amended): for a sweep whose pre-decimation window exceeds 2000
samples, the emitted samples are the subsequence at stride
`floor(len/2000)` and the reported trigger index is divided by that same
stride; the emitted length is `ceil(len/stride)`, which is at most 3999
but can exceed 2000 (the claim's "length ≤ 2000" does not hold; see the
counterexample). -/
theorem sweep_decimation_spec (ts : ScopeTriggerState) (buffer : List ScopeSample)
    (idx : ℕ) (msg : SweepMsg)
    (h : send_triggered_sweep ts buffer idx = some msg)
    (hbig : 2000 < (sweepWindow buffer ((idx : ℤ) - ts.pre_trigger_samples)
        ((idx : ℤ) + ts.post_trigger_samples)).length) :
    msg.samples = sliceStep
        (sweepWindow buffer ((idx : ℤ) - ts.pre_trigger_samples)
          ((idx : ℤ) + ts.post_trigger_samples))
        ((sweepWindow buffer ((idx : ℤ) - ts.pre_trigger_samples)
          ((idx : ℤ) + ts.post_trigger_samples)).length / 2000) ∧
    msg.trigger_index = ((((idx : ℤ) - ((idx : ℤ) - ts.pre_trigger_samples)).toNat
        / ((sweepWindow buffer ((idx : ℤ) - ts.pre_trigger_samples)
          ((idx : ℤ) + ts.post_trigger_samples)).length / 2000) : ℕ) : ℤ) ∧
    msg.samples.length =
      ((sweepWindow buffer ((idx : ℤ) - ts.pre_trigger_samples)
          ((idx : ℤ) + ts.post_trigger_samples)).length
        + (sweepWindow buffer ((idx : ℤ) - ts.pre_trigger_samples)
          ((idx : ℤ) + ts.post_trigger_samples)).length / 2000 - 1)
        / ((sweepWindow buffer ((idx : ℤ) - ts.pre_trigger_samples)
          ((idx : ℤ) + ts.post_trigger_samples)).length / 2000) ∧
    msg.samples.length ≤ 3999 := by
  set w := sweepWindow buffer ((idx : ℤ) - ts.pre_trigger_samples)
      ((idx : ℤ) + ts.post_trigger_samples) with hw
  unfold send_triggered_sweep at h
  dsimp only at h
  split at h
  · simp at h
  · split at h
    · simp at h
    · rw [← hw] at h
      obtain rfl : _ = msg := Option.some.inj h
      have hk : 1 ≤ w.length / 2000 :=
        (Nat.one_le_div_iff (by norm_num)).2 (le_of_lt hbig)
      refine ⟨by simp [hbig], by simp [hbig], ?_, ?_⟩
      · simp only [hbig, if_pos]
        exact sliceStep_length w _ hk
      · simp only [hbig, if_pos]
        rw [sliceStep_length w _ hk]
        exact ceil_div_stride_bound w.length hbig

/-- C2 counterexample: a 2001-sample window gets stride
`2001 // 2000 = 1`, so the emitted sweep still holds 2001 > 2000
samples. -/
theorem sweep_decimation_counterexample :
    2000 < (sweepWindow bufWide (((0 : ℕ) : ℤ) - tsWide.pre_trigger_samples)
        (((0 : ℕ) : ℤ) + tsWide.post_trigger_samples)).length ∧
    (send_triggered_sweep tsWide bufWide 0).map (fun m => m.samples.length) = some 2001 := by
  have hlen : bufWide.length = 2001 := by
    rw [bufWide]; exact List.length_replicate ..
  have hs : ((((0 : ℕ) : ℤ)) - tsWide.pre_trigger_samples).toNat = 0 := by
    norm_num [tsWide]
  have he : (((((0 : ℕ) : ℤ)) + tsWide.post_trigger_samples)
      - ((((0 : ℕ) : ℤ)) - tsWide.pre_trigger_samples)).toNat = 2001 := by
    norm_num [tsWide]
    rfl
  have hwin : sweepWindow bufWide (((0 : ℕ) : ℤ) - tsWide.pre_trigger_samples)
      (((0 : ℕ) : ℤ) + tsWide.post_trigger_samples) = bufWide := by
    rw [sweepWindow, hs, he, List.drop_zero, ← hlen, List.take_length]
  refine ⟨by rw [hwin, hlen]; norm_num, ?_⟩
  unfold send_triggered_sweep
  dsimp only
  rw [if_neg (by norm_num [tsWide]), if_neg (by norm_num [tsWide, hlen])]
  simp only [Option.map_some']
  rw [hwin, hlen]
  norm_num [sliceStep_one, hlen]

/-- C4 (amended): in normal and single modes the dispatch phase emits a
sweep only when armed and a trigger is found; a disarmed processor emits
nothing and stays disarmed; normal mode leaves the armed flag unchanged;
and single mode clears the armed flag exactly when a trigger candidate is
found while armed — even if the sweep itself is skipped for an incomplete
window, so it can disarm without having emitted (see the
counterexample). -/
theorem scope_trigger_mode_spec (st : ScopeState) (now : ℚ)
    (hmode : st.trigger_state.mode = "normal" ∨ st.trigger_state.mode = "single") :
    ((scope_dispatch st now).2.isSome →
        st.trigger_state.armed = true ∧
        (detect_trigger st.trigger_state st.processed_buffer).1 = true ∧
        0 ≤ (detect_trigger st.trigger_state st.processed_buffer).2 ∧
        (scope_dispatch st now).2 = send_triggered_sweep st.trigger_state
            st.processed_buffer (detect_trigger st.trigger_state st.processed_buffer).2.toNat) ∧
    (st.trigger_state.armed = false →
        (scope_dispatch st now).2 = none ∧
        (scope_dispatch st now).1.trigger_state.armed = false) ∧
    (st.trigger_state.mode = "normal" →
        (scope_dispatch st now).1.trigger_state.armed = st.trigger_state.armed) ∧
    (st.trigger_state.mode = "single" →
        ((scope_dispatch st now).1.trigger_state.armed = false ↔
          (st.trigger_state.armed = false ∨
           ((detect_trigger st.trigger_state st.processed_buffer).1 = true ∧
            0 ≤ (detect_trigger st.trigger_state st.processed_buffer).2)))) := by
  have hnotauto : ¬ st.trigger_state.mode = "auto" := by
    rcases hmode with h | h <;> simp [h]
  rcases hdt : detect_trigger st.trigger_state st.processed_buffer with ⟨trg, idx⟩
  by_cases harm : st.trigger_state.armed
  · have hc1 : (st.trigger_state.mode = "normal" ∨ st.trigger_state.mode = "single")
        ∧ st.trigger_state.armed = true := ⟨hmode, harm⟩
    by_cases htrg : trg = true ∧ 0 ≤ idx
    · by_cases hsing : st.trigger_state.mode = "single"
      · simp [scope_dispatch, hnotauto, hdt, hc1, htrg.1, htrg.2, hsing, harm]
      · have hnorm : st.trigger_state.mode = "normal" := hmode.resolve_right hsing
        simp [scope_dispatch, hnotauto, hdt, hc1, htrg.1, htrg.2, hsing, hnorm, harm]
    · by_cases hsing : st.trigger_state.mode = "single"
      · simp [scope_dispatch, hnotauto, hdt, hc1, htrg, hsing, harm]
        try tauto
      · have hnorm : st.trigger_state.mode = "normal" := hmode.resolve_right hsing
        simp [scope_dispatch, hnotauto, hdt, hc1, htrg, hsing, hnorm, harm]
        try tauto
  · have harm' : st.trigger_state.armed = false := by simpa using harm
    have hcond : ¬ ((st.trigger_state.mode = "normal" ∨ st.trigger_state.mode = "single")
        ∧ st.trigger_state.armed = true) := by simp [harm']
    simp [scope_dispatch, hnotauto, hdt, hcond, harm']

theorem detectLoop_hit (ts : ScopeTriggerState) (buffer : List ScopeSample)
    (i r : ℕ) (prev cur : ScopeSample) (pai cai : List ℚ)
    (hr : 1 ≤ r)
    (h1 : buffer.get? i = some prev) (h2 : buffer.get? (i + 1) = some cur)
    (hpai : prev.ai = some pai) (hcai : cur.ai = some cai)
    (hlen1 : ts.source_index < pai.length) (hlen2 : ts.source_index < cai.length)
    (hedge : ts.edge = "rising")
    (hlt : listValD pai ts.source_index < ts.level)
    (hge : ts.level ≤ listValD cai ts.source_index) :
    detectLoop ts buffer i r = (true, (i : ℤ) + 1) := by
  cases r with
  | zero => omega
  | succ r =>
      simp only [List.get?_eq_getElem?] at h1 h2
      simp [detectLoop, h1, h2, hpai, hcai, hedge, hlt, hge, hlen1, hlen2]

/-- C4 counterexample: a single-mode processor finds a trigger at index 2
with 100 pre-trigger samples required, skips the sweep (nothing emitted),
yet disarms — contradicting "it never disarms without having emitted a
sweep". -/
theorem single_disarm_counterexample :
    stSingle.trigger_state.armed = true ∧
    (process_samples stSingle batchEdge 1000 0).2 = none ∧
    (process_samples stSingle batchEdge 1000 0).1.trigger_state.armed = false := by
  have hlen : batchEdge.length = 110 := by simp [batchEdge]
  have hingest : scope_ingest stSingle batchEdge 1000 =
      { trigger_state := tsSingle, processed_buffer := batchEdge,
        stats_last_time := 0, stats_samples_processed := 110, stats_triggers_found := 0 } := by
    unfold scope_ingest
    dsimp only
    rw [if_neg (by decide : ¬ stSingle.trigger_state.samples_needed = (0 : ℤ))]
    simp [stSingle, hlen]
  have hget2 : batchEdge.get? 2 = some sampHi := by
    show (sampLo :: sampLo :: List.replicate 108 sampHi).get? 2 = some sampHi
    rw [show (108 : ℕ) = 107 + 1 from rfl, List.replicate_succ]
    rfl
  have hdetect : detect_trigger tsSingle batchEdge = (true, 2) := by
    unfold detect_trigger
    rw [hlen]
    rw [if_neg (by decide : ¬ ((110 : ℕ) : ℤ) < tsSingle.pre_trigger_samples + 10)]
    have h109 : min 1000 (110 - 1) = 109 := by norm_num
    rw [h109]
    have hhit := detectLoop_hit tsSingle batchEdge 1 108 sampLo sampHi [0] [1]
      (by norm_num) (by rfl) hget2 rfl rfl (by norm_num [tsSingle]) (by norm_num [tsSingle])
      rfl (by norm_num [tsSingle, listValD]) (by norm_num [tsSingle, listValD])
    simpa using hhit
  have hsend : send_triggered_sweep tsSingle batchEdge 2 = none := by
    unfold send_triggered_sweep
    dsimp only
    rw [if_pos (by decide : ((2 : ℕ) : ℤ) - tsSingle.pre_trigger_samples < 0)]
  have hproc : process_samples stSingle batchEdge 1000 0 =
      ({ trigger_state := { tsSingle with armed := false }, processed_buffer := batchEdge,
         stats_last_time := 0, stats_samples_processed := 110, stats_triggers_found := 1 }, none) := by
    unfold process_samples
    rw [if_neg (by simp [batchEdge] : ¬ batchEdge.isEmpty = true)]
    dsimp only
    rw [hingest]
    unfold scope_dispatch
    dsimp only
    rw [if_neg (by decide : ¬ tsSingle.mode = "auto")]
    rw [if_pos (show (tsSingle.mode = "normal" ∨ tsSingle.mode = "single")
        ∧ tsSingle.armed = true from ⟨Or.inr (by decide), by decide⟩)]
    rw [hdetect]
    dsimp only
    rw [if_pos (show (true = true ∧ (0 : ℤ) ≤ 2) from by decide)]
    rw [show Int.toNat 2 = 2 from rfl, hsend]
    rw [if_pos (by decide : tsSingle.mode = "single")]
    unfold scope_stats_reset
    dsimp only
    rw [if_neg (by norm_num : ¬ (5 : ℚ) < 0 - 0)]
  rw [hproc]
  exact ⟨rfl, rfl, rfl⟩

theorem scope_trigger_mode_spec_witness :
    (scope_dispatch stDisarmed 0).2 = none ∧
    (scope_dispatch stDisarmed 0).1.trigger_state.armed = false :=
  (scope_trigger_mode_spec stDisarmed 0 (Or.inl rfl)).2.1 rfl

theorem sweep_decimation_spec_witness :
    msgWide.samples = sliceStep
        (sweepWindow bufWide (((0 : ℕ) : ℤ) - tsWide.pre_trigger_samples)
          (((0 : ℕ) : ℤ) + tsWide.post_trigger_samples))
        ((sweepWindow bufWide (((0 : ℕ) : ℤ) - tsWide.pre_trigger_samples)
          (((0 : ℕ) : ℤ) + tsWide.post_trigger_samples)).length / 2000) ∧
    msgWide.trigger_index = (((((0 : ℕ) : ℤ) - (((0 : ℕ) : ℤ) - tsWide.pre_trigger_samples)).toNat
        / ((sweepWindow bufWide (((0 : ℕ) : ℤ) - tsWide.pre_trigger_samples)
          (((0 : ℕ) : ℤ) + tsWide.post_trigger_samples)).length / 2000) : ℕ) : ℤ) ∧
    msgWide.samples.length =
      ((sweepWindow bufWide (((0 : ℕ) : ℤ) - tsWide.pre_trigger_samples)
          (((0 : ℕ) : ℤ) + tsWide.post_trigger_samples)).length
        + (sweepWindow bufWide (((0 : ℕ) : ℤ) - tsWide.pre_trigger_samples)
          (((0 : ℕ) : ℤ) + tsWide.post_trigger_samples)).length / 2000 - 1)
        / ((sweepWindow bufWide (((0 : ℕ) : ℤ) - tsWide.pre_trigger_samples)
          (((0 : ℕ) : ℤ) + tsWide.post_trigger_samples)).length / 2000) ∧
    msgWide.samples.length ≤ 3999 := by
  have hlen : bufWide.length = 2001 := by rw [bufWide]; exact List.length_replicate ..
  have hs : ((((0 : ℕ) : ℤ)) - tsWide.pre_trigger_samples).toNat = 0 := by norm_num [tsWide]
  have he : (((((0 : ℕ) : ℤ)) + tsWide.post_trigger_samples)
      - ((((0 : ℕ) : ℤ)) - tsWide.pre_trigger_samples)).toNat = 2001 := by
    norm_num [tsWide]
    rfl
  have hwin : sweepWindow bufWide (((0 : ℕ) : ℤ) - tsWide.pre_trigger_samples)
      (((0 : ℕ) : ℤ) + tsWide.post_trigger_samples) = bufWide := by
    rw [sweepWindow, hs, he, List.drop_zero, ← hlen, List.take_length]
  have hbig : 2000 < (sweepWindow bufWide (((0 : ℕ) : ℤ) - tsWide.pre_trigger_samples)
      (((0 : ℕ) : ℤ) + tsWide.post_trigger_samples)).length := by
    rw [hwin, hlen]; norm_num
  have hmsg : send_triggered_sweep tsWide bufWide 0 = some msgWide := by
    unfold send_triggered_sweep
    dsimp only
    rw [if_neg (by norm_num [tsWide] : ¬ (((0 : ℕ) : ℤ) - tsWide.pre_trigger_samples < 0))]
    rw [if_neg (show ¬ ((bufWide.length : ℤ) < ((0 : ℕ) : ℤ) + tsWide.post_trigger_samples) by
      rw [hlen]; norm_num [tsWide])]
    rw [hwin, hlen]
    simp only [if_pos (show (2000 : ℕ) < 2001 by norm_num),
      show (2001 / 2000 : ℕ) = 1 from by norm_num, msgWide]
    congr 2
  exact sweep_decimation_spec tsWide bufWide 0 msgWide hmsg hbig

theorem flushDoLoop_skip_all (ch : ℕ) (v : Bool) :
    ∀ (m : ℕ) (last : List (ℕ × Bool)) (mirror : List Bool) (issued : List (ℕ × Bool)),
      lookupDo last ch = some v →
      flushDoLoop (List.replicate m (ch, v)) last mirror issued = (issued, last, mirror, []) := by
  intro m
  induction m with
  | zero => intro last mirror issued _; simp [flushDoLoop]
  | succ m ih =>
      intro last mirror issued hlast
      rw [List.replicate_succ]
      simp only [flushDoLoop, hlast]
      simp [ih last mirror issued hlast]

theorem flushAoLoop_skip_all (ch : ℕ) (v : ℚ) :
    ∀ (m : ℕ) (last : List (ℕ × ℚ)) (mirror : List ℚ) (issued : List (ℕ × ℚ)),
      ¬ (1/1000 < |(lookupAo last ch).getD 0 - v|) →
      flushAoLoop (List.replicate m (ch, v)) last mirror issued = (issued, last, mirror, []) := by
  intro m
  induction m with
  | zero => intro last mirror issued _; simp [flushAoLoop]
  | succ m ih =>
      intro last mirror issued hlast
      rw [List.replicate_succ]
      simp only [flushAoLoop]
      rw [if_neg hlast]
      exact ih last mirror issued hlast

/-- C5 (amended): during one flush with `n ≥ 1` identical DO intents and
`m ≥ 1` identical AO intents queued (channels in range), at most one
physical write per kind is issued: exactly one when the value differs from
the last physically-written value for that channel (for analog, by more
than the 0.001 dead-band), and zero otherwise — the drain suppresses
intents equal to the running last-written value rather than
unconditionally writing once. -/
theorem write_dedup_spec (st : HwWriteState) (n m : ℕ) (ch ach : ℕ) (v : Bool) (av : ℚ)
    (hdo : st.do_writes = List.replicate n (ch, v))
    (hao : st.ao_writes = List.replicate m (ach, av))
    (hch : ch < st.do_.length) (hach : ach < st.ao.length)
    (hn : 1 ≤ n) (hm : 1 ≤ m) :
    (hardware_write_flush st).1 =
      (if lookupDo st.last_do_written ch ≠ some v then [(ch, v)] else []) ∧
    (hardware_write_flush st).2.1 =
      (if 1/1000 < |(lookupAo st.last_ao_written ach).getD 0 - av| then [(ach, av)] else []) := by
  obtain ⟨n, rfl⟩ : ∃ k, n = k + 1 := ⟨n - 1, by omega⟩
  obtain ⟨m, rfl⟩ : ∃ k, m = k + 1 := ⟨m - 1, by omega⟩
  unfold hardware_write_flush
  rw [hdo, hao, List.replicate_succ, List.replicate_succ]
  constructor
  · by_cases hlast : lookupDo st.last_do_written ch = some v
    · rw [if_neg (by simp [hlast])]
      simp only [flushDoLoop]
      rw [if_neg (by simp [hlast])]
      rw [flushDoLoop_skip_all ch v n st.last_do_written st.do_ [] hlast]
    · rw [if_pos (by simp [hlast])]
      simp only [flushDoLoop]
      rw [if_pos (by simp [hlast]), if_pos hch]
      rw [flushDoLoop_skip_all ch v n ((ch, v) :: st.last_do_written) (st.do_.set ch v)
        ([] ++ [(ch, v)]) (by simp [lookupDo])]
      rfl
  · by_cases hlast : 1/1000 < |(lookupAo st.last_ao_written ach).getD 0 - av|
    · rw [if_pos hlast]
      simp only [flushAoLoop]
      rw [if_pos hlast, if_pos hach]
      rw [flushAoLoop_skip_all ach av m ((ach, av) :: st.last_ao_written) (st.ao.set ach av)
        ([] ++ [(ach, av)]) (by simp [lookupAo])]
      rfl
    · rw [if_neg hlast]
      simp only [flushAoLoop]
      rw [if_neg hlast]
      rw [flushAoLoop_skip_all ach av m st.last_ao_written st.ao [] hlast]

/-- C5 counterexample: one flush whose DO queue holds a single intent
`(0, true)` while channel 0 last physically wrote `true` issues zero
physical writes, not exactly one. -/
theorem write_dedup_counterexample :
    hwRedundant.do_writes = List.replicate 1 (0, true) ∧
    (hardware_write_flush hwRedundant).1 = [] ∧
    (hardware_write_flush hwRedundant).1.length ≠ 1 :=
  ⟨rfl, rfl, by decide⟩

theorem write_dedup_spec_witness :
    (hardware_write_flush hwFresh).1 =
      (if lookupDo hwFresh.last_do_written 0 ≠ some true then [(0, true)] else []) ∧
    (hardware_write_flush hwFresh).2.1 =
      (if 1/1000 < |(lookupAo hwFresh.last_ao_written 1).getD 0 - 5| then [(1, 5)] else []) :=
  write_dedup_spec hwFresh 3 2 0 1 true 5 rfl rfl (by decide) (by decide)
    (by norm_num) (by norm_num)

theorem evalAllStep_telemetry_append (mf : String → ℚ → ℚ) (rate : ℚ)
    (acc : EvalAllAcc) (p : ℕ × ExpressionDef) :
    ∃ entry, (evalAllStep mf rate acc p).telemetry = acc.telemetry ++ [entry] := by
  obtain ⟨i, expr⟩ := p
  unfold evalAllStep evalAllExec
  dsimp only
  split
  · exact ⟨_, rfl⟩
  · split
    · split
      · split
        · exact ⟨_, rfl⟩
        · exact ⟨_, rfl⟩
      · exact ⟨_, rfl⟩
    · split
      · exact ⟨_, rfl⟩
      · exact ⟨_, rfl⟩

theorem foldl_telemetry_length (mf : String → ℚ → ℚ) (rate : ℚ) :
    ∀ (ps : List (ℕ × ExpressionDef)) (acc : EvalAllAcc),
      (List.foldl (evalAllStep mf rate) acc ps).telemetry.length
        = acc.telemetry.length + ps.length := by
  intro ps
  induction ps with
  | nil => intro acc; simp
  | cons p rest ih =>
      intro acc
      rw [List.foldl_cons, ih]
      obtain ⟨entry, he⟩ := evalAllStep_telemetry_append mf rate acc p
      rw [he]
      simp
      omega

/-- C1 (amended): when an expression's evaluation raises, the registry
catches the error in that expression's loop iteration: the error message
is surfaced in that cycle's telemetry entry, the cached output is reset to
0.0 (not retained — see the counterexample), the cached telemetry used for
skipped cycles is left unchanged, and the pass continues so that every
other expression still contributes its own telemetry entry. -/
theorem expr_error_isolation (mf : String → ℚ → ℚ) (rate : ℚ) (acc : EvalAllAcc)
    (i : ℕ) (expr : ExpressionDef) (rest : List (ℕ × ExpressionDef)) (msg : String)
    (gv' : List (String × ℚ))
    (hen : expr.enabled = true) (hrate : expr.execution_rate_hz = none)
    (herr : evaluate_expression mf expr.expression acc.ss acc.gv = (Except.error msg, gv')) :
    evalAllStep mf rate acc (i, expr) =
      { acc with
        outputs := acc.outputs.set i 0,
        gv := gv',
        telemetry := acc.telemetry ++
          [{ name := expr.name, output := 0, enabled := true, error := some msg }] } ∧
    (evalAllStep mf rate acc (i, expr)).last_telemetry = acc.last_telemetry ∧
    (List.foldl (evalAllStep mf rate) acc ((i, expr) :: rest)).telemetry.length
      = acc.telemetry.length + 1 + rest.length := by
  have hstep : evalAllStep mf rate acc (i, expr) =
      { acc with
        outputs := acc.outputs.set i 0,
        gv := gv',
        telemetry := acc.telemetry ++
          [{ name := expr.name, output := 0, enabled := true, error := some msg }] } := by
    unfold evalAllStep evalAllExec
    simp [hen, hrate, herr]
  refine ⟨hstep, by rw [hstep], ?_⟩
  rw [List.foldl_cons, foldl_telemetry_length, hstep]
  simp

/-- C1 counterexample: with expression A = `foo(1)` (cached output 5) and
B = `1+2`, one pass reports A's error and still evaluates B, but A's
cached output becomes 0.0 instead of being retained at 5. -/
theorem expr_error_retention_counterexample :
    mgrErr.outputs.get? 0 = some 5 ∧
    (evaluate_all mfZero mgrErr {} [] 100).1.outputs.get? 0 = some 0 ∧
    ((evaluate_all mfZero mgrErr {} [] 100).2.2.get? 0).map (fun t => t.error)
      = some (some "Unknown function: foo") ∧
    ((evaluate_all mfZero mgrErr {} [] 100).2.2.get? 1).map (fun t => (t.name, t.error))
      = some ("B", none) ∧
    (evaluate_all mfZero mgrErr {} [] 100).1.last_telemetry.get? 0
      = some { name := "A", output := 5 } :=
  ⟨rfl, rfl, rfl, rfl, rfl⟩

theorem expr_error_isolation_witness :
    evalAllStep mfZero 100 accErr (0, exprA) =
      { accErr with
        outputs := accErr.outputs.set 0 0,
        gv := [],
        telemetry := accErr.telemetry ++
          [{ name := "A", output := 0, enabled := true,
             error := some "Unknown function: foo" }] } ∧
    (evalAllStep mfZero 100 accErr (0, exprA)).last_telemetry = accErr.last_telemetry ∧
    (List.foldl (evalAllStep mfZero 100) accErr [(0, exprA), (1, exprB)]).telemetry.length
      = accErr.telemetry.length + 1 + 1 :=
  expr_error_isolation mfZero 100 accErr 0 exprA [(1, exprB)]
    "Unknown function: foo" [] rfl rfl rfl

theorem evalAllStep_frame (mf : String → ℚ → ℚ) (rate : ℚ) (acc : EvalAllAcc)
    (j : ℕ) (e : ExpressionDef) (i : ℕ) (hne : j ≠ i) :
    (evalAllStep mf rate acc (j, e)).tick_counters.get? i = acc.tick_counters.get? i ∧
    (evalAllStep mf rate acc (j, e)).last_telemetry.get? i = acc.last_telemetry.get? i := by
  unfold evalAllStep evalAllExec EvalAllAcc.withTicks
  dsimp only
  split
  · simp [List.getElem?_set_ne hne]
  · split
    · split
      · split <;> simp [List.getElem?_set_ne hne]
      · simp [List.getElem?_set_ne hne]
    · split <;> simp [List.getElem?_set_ne hne]

theorem evalAllStep_lengths (mf : String → ℚ → ℚ) (rate : ℚ) (acc : EvalAllAcc)
    (p : ℕ × ExpressionDef) :
    (evalAllStep mf rate acc p).tick_counters.length = acc.tick_counters.length ∧
    (evalAllStep mf rate acc p).last_telemetry.length = acc.last_telemetry.length := by
  obtain ⟨j, e⟩ := p
  unfold evalAllStep evalAllExec EvalAllAcc.withTicks
  dsimp only
  split
  · simp
  · split
    · split
      · split <;> simp
      · simp
    · split <;> simp

theorem evalAllStep_skip (mf : String → ℚ → ℚ) (rate : ℚ) (acc : EvalAllAcc)
    (i : ℕ) (expr : ExpressionDef) (r : ℚ)
    (hen : expr.enabled = true) (hr : expr.execution_rate_hz = some r) (h0 : 0 < r)
    (hlt : (acc.tick_counters.get? i).getD 0 + 1 < max 1 (pyRound (rate / r))) :
    evalAllStep mf rate acc (i, expr) =
      { acc with
        tick_counters := acc.tick_counters.set i ((acc.tick_counters.get? i).getD 0 + 1),
        telemetry := acc.telemetry ++
          [{ (acc.last_telemetry.get? i).getD {} with skipped := true }] } := by
  unfold evalAllStep
  dsimp only
  rw [if_neg (by simp [hen]), hr]
  dsimp only
  rw [if_pos h0]
  dsimp only
  rw [if_neg (not_le.mpr hlt)]

theorem evalAllStep_exec (mf : String → ℚ → ℚ) (rate : ℚ) (acc : EvalAllAcc)
    (i : ℕ) (expr : ExpressionDef) (r : ℚ)
    (hen : expr.enabled = true) (hr : expr.execution_rate_hz = some r) (h0 : 0 < r)
    (hge : max 1 (pyRound (rate / r)) ≤ (acc.tick_counters.get? i).getD 0 + 1) :
    (evalAllStep mf rate acc (i, expr)).tick_counters = acc.tick_counters.set i 0 ∧
    ∃ entry, (evalAllStep mf rate acc (i, expr)).telemetry = acc.telemetry ++ [entry]
      ∧ entry.skipped = false := by
  unfold evalAllStep
  dsimp only
  rw [if_neg (by simp [hen]), hr]
  dsimp only
  rw [if_pos h0]
  dsimp only
  rw [if_pos hge]
  unfold evalAllExec EvalAllAcc.withTicks
  dsimp only
  split <;> exact ⟨rfl, _, rfl, rfl⟩

theorem enumFrom_fst_ge (es : List ExpressionDef) :
    ∀ (k : ℕ) (p : ℕ × ExpressionDef), p ∈ es.enumFrom k → k ≤ p.1 := by
  induction es with
  | nil => intro k p hp; simp [List.enumFrom] at hp
  | cons e es ih =>
      intro k p hp
      simp only [List.enumFrom, List.mem_cons] at hp
      rcases hp with h | h
      · subst h; exact le_refl _
      · exact Nat.le_of_succ_le (ih (k + 1) p h)

theorem foldl_ticks_frame (mf : String → ℚ → ℚ) (rate : ℚ) (i : ℕ) :
    ∀ (ps : List (ℕ × ExpressionDef)) (acc : EvalAllAcc),
      (∀ p ∈ ps, p.1 ≠ i) →
      (List.foldl (evalAllStep mf rate) acc ps).tick_counters.get? i
          = acc.tick_counters.get? i ∧
      (List.foldl (evalAllStep mf rate) acc ps).last_telemetry.get? i
          = acc.last_telemetry.get? i ∧
      ∃ tl, (List.foldl (evalAllStep mf rate) acc ps).telemetry
          = acc.telemetry ++ tl := by
  intro ps
  induction ps with
  | nil => intro acc h; exact ⟨rfl, rfl, [], by simp⟩
  | cons p ps ih =>
      intro acc h
      obtain ⟨j, e⟩ := p
      have hne : j ≠ i := h _ (List.mem_cons_self _ _)
      have hframe := evalAllStep_frame mf rate acc j e i hne
      obtain ⟨entry, happ⟩ := evalAllStep_telemetry_append mf rate acc (j, e)
      obtain ⟨h1, h2, tl, h3⟩ :=
        ih (evalAllStep mf rate acc (j, e)) (fun q hq => h q (List.mem_cons_of_mem _ hq))
      refine ⟨?_, ?_, entry :: tl, ?_⟩
      · rw [List.foldl_cons, h1, hframe.1]
      · rw [List.foldl_cons, h2, hframe.2]
      · rw [List.foldl_cons, h3, happ]
        simp

theorem foldl_ticks_length (mf : String → ℚ → ℚ) (rate : ℚ) :
    ∀ (ps : List (ℕ × ExpressionDef)) (acc : EvalAllAcc),
      (List.foldl (evalAllStep mf rate) acc ps).tick_counters.length
          = acc.tick_counters.length := by
  intro ps
  induction ps with
  | nil => intro acc; rfl
  | cons p ps ih =>
      intro acc
      rw [List.foldl_cons, ih, (evalAllStep_lengths mf rate acc p).1]

theorem foldl_component (mf : String → ℚ → ℚ) (rate : ℚ)
    (i : ℕ) (expr : ExpressionDef) (r : ℚ)
    (hen : expr.enabled = true) (hr : expr.execution_rate_hz = some r) (h0 : 0 < r) :
    ∀ (es : List ExpressionDef) (k j : ℕ) (acc : EvalAllAcc) (c : ℤ),
      es.get? j = some expr → k + j = i →
      i < acc.tick_counters.length →
      acc.tick_counters.get? i = some c →
      (List.foldl (evalAllStep mf rate) acc (es.enumFrom k)).tick_counters.get? i
        = some (if max 1 (pyRound (rate / r)) ≤ c + 1 then 0 else c + 1) ∧
      (c + 1 < max 1 (pyRound (rate / r)) →
        (List.foldl (evalAllStep mf rate) acc (es.enumFrom k)).telemetry.get?
            (acc.telemetry.length + j)
          = some { (acc.last_telemetry.get? i).getD {} with skipped := true } ∧
        (List.foldl (evalAllStep mf rate) acc (es.enumFrom k)).last_telemetry.get? i
          = acc.last_telemetry.get? i) ∧
      (max 1 (pyRound (rate / r)) ≤ c + 1 →
        ∃ t, (List.foldl (evalAllStep mf rate) acc (es.enumFrom k)).telemetry.get?
            (acc.telemetry.length + j) = some t ∧ t.skipped = false) := by
  intro es
  induction es with
  | nil =>
      intro k j acc c hget
      simp at hget
  | cons e es ih =>
      intro k j acc c hget hkj hlen hc
      simp only [List.enumFrom, List.foldl_cons]
      cases j with
      | zero =>
          have he : e = expr := by simpa using hget
          have hk : k = i := by omega
          subst he
          subst hk
          have hsuffix : ∀ p ∈ es.enumFrom (k + 1), p.1 ≠ k := by
            intro p hp
            have := enumFrom_fst_ge es (k + 1) p hp
            omega
          by_cases hcase : max 1 (pyRound (rate / r)) ≤ c + 1
          · -- execute path
            have hexec := evalAllStep_exec mf rate acc k e r hen hr h0
              (by rw [hc]; exact hcase)
            obtain ⟨hticks, entry, htel, hskip⟩ := hexec
            obtain ⟨hf1, hf2, tl, hf3⟩ :=
              foldl_ticks_frame mf rate k (es.enumFrom (k + 1))
                (evalAllStep mf rate acc (k, e)) hsuffix
            refine ⟨?_, ?_, ?_⟩
            · rw [hf1, hticks, if_pos hcase]
              exact List.get?_set_eq_of_lt 0 hlen
            · intro h
              exact absurd hcase (not_le.mpr h)
            · intro _
              refine ⟨entry, ?_, hskip⟩
              rw [hf3, htel, List.append_assoc]
              rw [List.get?_append_right (by simp)]
              simp
          · -- skipped path
            have hlt : c + 1 < max 1 (pyRound (rate / r)) := not_le.mp hcase
            have hskiplem := evalAllStep_skip mf rate acc k e r hen hr h0
              (by rw [hc]; exact hlt)
            obtain ⟨hf1, hf2, tl, hf3⟩ :=
              foldl_ticks_frame mf rate k (es.enumFrom (k + 1))
                (evalAllStep mf rate acc (k, e)) hsuffix
            refine ⟨?_, ?_, ?_⟩
            · rw [hf1, hskiplem]
              dsimp only
              rw [hc, if_neg hcase]
              exact List.get?_set_eq_of_lt _ hlen
            · intro _
              constructor
              · rw [hf3, hskiplem]
                dsimp only
                rw [List.append_assoc, List.get?_append_right (by simp)]
                simp
              · rw [hf2, hskiplem]
            · intro h
              exact absurd h hcase
      | succ j' =>
          have hget' : es.get? j' = some expr := by simpa using hget
          have hkj' : (k + 1) + j' = i := by omega
          have hne : k ≠ i := by omega
          have hframe := evalAllStep_frame mf rate acc k e i hne
          obtain ⟨entry0, happ⟩ := evalAllStep_telemetry_append mf rate acc (k, e)
          have hlen' : i < (evalAllStep mf rate acc (k, e)).tick_counters.length := by
            rw [(evalAllStep_lengths mf rate acc (k, e)).1]
            exact hlen
          have hc' : (evalAllStep mf rate acc (k, e)).tick_counters.get? i = some c := by
            rw [hframe.1, hc]
          have hIH := ih (k + 1) j' (evalAllStep mf rate acc (k, e)) c hget' hkj' hlen' hc'
          have hpos : (evalAllStep mf rate acc (k, e)).telemetry.length + j'
              = acc.telemetry.length + (j' + 1) := by
            rw [happ]
            simp
            omega
          refine ⟨hIH.1, ?_, ?_⟩
          · intro h
            obtain ⟨ht, hl⟩ := hIH.2.1 h
            rw [hpos] at ht
            rw [hframe.2] at ht hl
            exact ⟨ht, hl⟩
          · intro h
            obtain ⟨t, ht, hs⟩ := hIH.2.2 h
            rw [hpos] at ht
            exact ⟨t, ht, hs⟩

theorem evaluate_all_component (mf : String → ℚ → ℚ) (rate : ℚ)
    (m : ManagerState) (ss : SignalState) (gv : List (String × ℚ))
    (i : ℕ) (expr : ExpressionDef) (r : ℚ) (c : ℤ)
    (hget : m.expressions.get? i = some expr)
    (hen : expr.enabled = true) (hr : expr.execution_rate_hz = some r) (h0 : 0 < r)
    (hlen : i < m.tick_counters.length)
    (hc : m.tick_counters.get? i = some c) :
    (evaluate_all mf m ss gv rate).1.tick_counters.get? i
      = some (if max 1 (pyRound (rate / r)) ≤ c + 1 then 0 else c + 1) ∧
    (c + 1 < max 1 (pyRound (rate / r)) →
      (evaluate_all mf m ss gv rate).2.2.get? i
        = some { (m.last_telemetry.get? i).getD {} with skipped := true } ∧
      (evaluate_all mf m ss gv rate).1.last_telemetry.get? i
        = m.last_telemetry.get? i) ∧
    (max 1 (pyRound (rate / r)) ≤ c + 1 →
      ∃ t, (evaluate_all mf m ss gv rate).2.2.get? i = some t ∧ t.skipped = false) := by
  have h := foldl_component mf rate i expr r hen hr h0 m.expressions 0 i
    { outputs := m.outputs, tick_counters := m.tick_counters,
      last_telemetry := m.last_telemetry,
      ss := { ss with
        expr_list := m.expressions.map (fun e => SigEntry.mk e.name),
        expr := m.outputs.map SigVal.num },
      gv := gv, telemetry := [] } c hget (by omega) hlen hc
  simp only [List.length_nil, Nat.zero_add] at h
  unfold evaluate_all
  dsimp only
  rw [List.enum]
  exact h

theorem pyRound_ge_one (q : ℚ) (h : 1 < q) : 1 ≤ pyRound q := by
  have hf : 1 ≤ ⌊q⌋ := Int.le_floor.mpr (by exact_mod_cast h.le)
  unfold pyRound
  dsimp only
  split
  · exact hf
  · split
    · omega
    · split
      · exact hf
      · omega

theorem evaluate_all_expressions (mf : String → ℚ → ℚ) (m : ManagerState)
    (ss : SignalState) (gv : List (String × ℚ)) (rate : ℚ) :
    (evaluate_all mf m ss gv rate).1.expressions = m.expressions := rfl

theorem evaluate_all_ticks_length (mf : String → ℚ → ℚ) (m : ManagerState)
    (ss : SignalState) (gv : List (String × ℚ)) (rate : ℚ) :
    (evaluate_all mf m ss gv rate).1.tick_counters.length
      = m.tick_counters.length := by
  unfold evaluate_all
  dsimp only
  exact foldl_ticks_length mf rate _ _

theorem runCycles_succ (mf : String → ℚ → ℚ) (ss : SignalState) (rate : ℚ)
    (n : ℕ) (m : ManagerState) (gv : List (String × ℚ)) :
    runCycles mf ss rate (n + 1) (m, gv)
      = ((runCycles mf ss rate n (cycleStep mf ss rate (m, gv))).1,
         (runCycles mf ss rate n (cycleStep mf ss rate (m, gv))).2.1,
         (evaluate_all mf m ss gv rate).2.2
           :: (runCycles mf ss rate n (cycleStep mf ss rate (m, gv))).2.2) := rfl

theorem cycleState_succ_apply (mf : String → ℚ → ℚ) (ss : SignalState) (rate : ℚ) :
    ∀ (n : ℕ) (p : ManagerState × List (String × ℚ)),
      cycleState mf ss rate (n + 1) p
        = cycleStep mf ss rate (cycleState mf ss rate n p) := by
  intro n
  induction n with
  | zero => intro p; rfl
  | succ n ih =>
      intro p
      calc cycleState mf ss rate (n + 1 + 1) p
          = cycleState mf ss rate (n + 1) (cycleStep mf ss rate p) := rfl
        _ = cycleStep mf ss rate (cycleState mf ss rate n (cycleStep mf ss rate p)) :=
            ih (cycleStep mf ss rate p)
        _ = cycleStep mf ss rate (cycleState mf ss rate (n + 1) p) := rfl

theorem runCycles_telemetry_get (mf : String → ℚ → ℚ) (ss : SignalState) (rate : ℚ) :
    ∀ (n : ℕ) (m : ManagerState) (gv : List (String × ℚ)) (k : ℕ), k < n →
      (runCycles mf ss rate n (m, gv)).2.2.get? k
        = some (evaluate_all mf (cycleState mf ss rate k (m, gv)).1 ss
            (cycleState mf ss rate k (m, gv)).2 rate).2.2 := by
  intro n
  induction n with
  | zero => intro m gv k hk; omega
  | succ n ih =>
      intro m gv k hk
      rw [runCycles_succ]
      cases k with
      | zero => rfl
      | succ k =>
          have hstep : cycleState mf ss rate (k + 1) (m, gv)
              = cycleState mf ss rate k (cycleStep mf ss rate (m, gv)) := rfl
          rw [hstep]
          dsimp only [List.get?]
          rw [← ih (cycleStep mf ss rate (m, gv)).1 (cycleStep mf ss rate (m, gv)).2 k
            (by omega)]

theorem emod_succ_step (k D : ℤ) (hD : 1 ≤ D) :
    (if D ≤ k % D + 1 then (0 : ℤ) else k % D + 1) = (k + 1) % D := by
  have hD0 : 0 < D := by omega
  have hnn : 0 ≤ k % D := Int.emod_nonneg k (by omega)
  have hlt : k % D < D := Int.emod_lt_of_pos k hD0
  have hdecomp : D * (k / D) + k % D = k := Int.ediv_add_emod k D
  by_cases hcase : D ≤ k % D + 1
  · rw [if_pos hcase]
    have hkk : k + 1 = D * (k / D + 1) := by
      have : k % D + 1 = D := by omega
      linarith [hdecomp]
    rw [hkk, Int.mul_emod_right]
  · rw [if_neg hcase]
    have hkk : k + 1 = (k % D + 1) + D * (k / D) := by linarith [hdecomp]
    have h2 : (k % D + 1 + D * (k / D)) % D = (k % D + 1) % D :=
      Int.add_mul_emod_self_left (k % D + 1) D (k / D)
    have h3 : (k % D + 1) % D = k % D + 1 :=
      Int.emod_eq_of_lt (by omega) (by omega)
    rw [hkk, h2, h3]

theorem cycleState_invariant (mf : String → ℚ → ℚ) (ss : SignalState) (rate : ℚ)
    (m : ManagerState) (gv : List (String × ℚ))
    (i : ℕ) (expr : ExpressionDef) (r : ℚ)
    (hget : m.expressions.get? i = some expr)
    (hen : expr.enabled = true) (hr : expr.execution_rate_hz = some r) (h0 : 0 < r)
    (hlen : i < m.tick_counters.length)
    (hc0 : m.tick_counters.get? i = some 0) :
    ∀ k : ℕ,
      (cycleState mf ss rate k (m, gv)).1.expressions = m.expressions ∧
      i < (cycleState mf ss rate k (m, gv)).1.tick_counters.length ∧
      (cycleState mf ss rate k (m, gv)).1.tick_counters.get? i
        = some ((k : ℤ) % max 1 (pyRound (rate / r))) := by
  intro k
  induction k with
  | zero =>
      refine ⟨rfl, hlen, ?_⟩
      show m.tick_counters.get? i = _
      rw [hc0]
      norm_num
  | succ k ih =>
      obtain ⟨hexpr, hl, hcnt⟩ := ih
      have hget' : (cycleState mf ss rate k (m, gv)).1.expressions.get? i = some expr := by
        rw [hexpr]; exact hget
      have hcomp := evaluate_all_component mf rate (cycleState mf ss rate k (m, gv)).1 ss
        (cycleState mf ss rate k (m, gv)).2 i expr r ((k : ℤ) % max 1 (pyRound (rate / r)))
        hget' hen hr h0 hl hcnt
      have hstep := cycleState_succ_apply mf ss rate k (m, gv)
      have hfst : (cycleState mf ss rate (k + 1) (m, gv)).1
          = (evaluate_all mf (cycleState mf ss rate k (m, gv)).1 ss
              (cycleState mf ss rate k (m, gv)).2 rate).1 := by
        rw [hstep]; rfl
      refine ⟨?_, ?_, ?_⟩
      · rw [hfst, evaluate_all_expressions, hexpr]
      · rw [hfst, evaluate_all_ticks_length]
        exact hl
      · rw [hfst, hcomp.1]
        have hcast : ((k : ℕ) + 1 : ℤ) % max 1 (pyRound (rate / r))
            = (((k + 1 : ℕ)) : ℤ) % max 1 (pyRound (rate / r)) := by
          push_cast
          ring_nf
        rw [← hcast, ← emod_succ_step (k : ℤ) (max 1 (pyRound (rate / r))) (le_max_left _ _)]

/-- C8: for an enabled expression whose `execution_rate_hz` is positive and
below the control-loop sample rate, the `max(1, ...)` guard on the decimation
factor is inert (`decimation_factor = round(rate / execution_rate_hz)`), and
starting from a zero tick counter the registry executes the expression on
cycle `k` (1-based) exactly when `decimation_factor` divides `k` - i.e. once
per `decimation_factor` consecutive cycles - while on every other cycle the
expression is not evaluated and its telemetry entry is the last cached
telemetry with the `skipped` flag set. -/
theorem execution_rate_decimation_spec (mf : String → ℚ → ℚ) (ss : SignalState)
    (rate : ℚ) (m : ManagerState) (gv : List (String × ℚ))
    (i : ℕ) (expr : ExpressionDef) (r : ℚ)
    (hget : m.expressions.get? i = some expr)
    (hen : expr.enabled = true)
    (hr : expr.execution_rate_hz = some r)
    (h0 : 0 < r) (hbelow : r < rate)
    (hlen : i < m.tick_counters.length)
    (hc0 : m.tick_counters.get? i = some 0)
    (n k : ℕ) (hk1 : 1 ≤ k) (hkn : k ≤ n) :
    max 1 (pyRound (rate / r)) = pyRound (rate / r) ∧
    ∃ t : Telem,
      ((runCycles mf ss rate n (m, gv)).2.2.get? (k - 1)).bind (fun tl => tl.get? i)
        = some t ∧
      (t.skipped = false ↔ pyRound (rate / r) ∣ (k : ℤ)) ∧
      (¬ pyRound (rate / r) ∣ (k : ℤ) →
        t = { ((cycleState mf ss rate (k - 1) (m, gv)).1.last_telemetry.get? i).getD {}
              with skipped := true }) := by
  have hq : 1 < rate / r := (one_lt_div h0).mpr hbelow
  have hD1 : 1 ≤ pyRound (rate / r) := pyRound_ge_one _ hq
  have hmax : max 1 (pyRound (rate / r)) = pyRound (rate / r) := max_eq_right hD1
  refine ⟨hmax, ?_⟩
  obtain ⟨hexpr, hl, hcnt⟩ :=
    cycleState_invariant mf ss rate m gv i expr r hget hen hr h0 hlen hc0 (k - 1)
  rw [hmax] at hcnt
  have hget' : (cycleState mf ss rate (k - 1) (m, gv)).1.expressions.get? i
      = some expr := by
    rw [hexpr]; exact hget
  have hcomp := evaluate_all_component mf rate (cycleState mf ss rate (k - 1) (m, gv)).1
    ss (cycleState mf ss rate (k - 1) (m, gv)).2 i expr r
    (((k - 1 : ℕ) : ℤ) % pyRound (rate / r)) hget' hen hr h0 hl hcnt
  rw [hmax] at hcomp
  have htelget := runCycles_telemetry_get mf ss rate n m gv (k - 1) (by omega)
  have hcast : ((k - 1 : ℕ) : ℤ) = (k : ℤ) - 1 := by
    push_cast [hk1]
    ring
  have hnn : 0 ≤ ((k - 1 : ℕ) : ℤ) % pyRound (rate / r) :=
    Int.emod_nonneg _ (by omega)
  have hclt : ((k - 1 : ℕ) : ℤ) % pyRound (rate / r) < pyRound (rate / r) :=
    Int.emod_lt_of_pos _ (by omega)
  have hdecomp : pyRound (rate / r) * (((k : ℤ) - 1) / pyRound (rate / r))
      + ((k - 1 : ℕ) : ℤ) % pyRound (rate / r) = (k : ℤ) - 1 := by
    rw [hcast]
    exact Int.ediv_add_emod _ _
  have hiff : pyRound (rate / r) ≤ ((k - 1 : ℕ) : ℤ) % pyRound (rate / r) + 1
      ↔ pyRound (rate / r) ∣ (k : ℤ) := by
    constructor
    · intro hle
      have hceq : ((k - 1 : ℕ) : ℤ) % pyRound (rate / r) + 1 = pyRound (rate / r) := by
        omega
      refine ⟨((k : ℤ) - 1) / pyRound (rate / r) + 1, ?_⟩
      have hprod : pyRound (rate / r) * (((k : ℤ) - 1) / pyRound (rate / r) + 1)
          = pyRound (rate / r) * (((k : ℤ) - 1) / pyRound (rate / r))
            + pyRound (rate / r) := by
        ring
      linarith [hdecomp, hceq, hprod]
    · intro hdvd
      have hsub : ((k - 1 : ℕ) : ℤ) % pyRound (rate / r) + 1
          = (k : ℤ) - pyRound (rate / r) * (((k : ℤ) - 1) / pyRound (rate / r)) := by
        linarith [hdecomp]
      have hdvd1 : pyRound (rate / r) ∣ ((k - 1 : ℕ) : ℤ) % pyRound (rate / r) + 1 := by
        rw [hsub]
        exact dvd_sub hdvd (dvd_mul_right _ _)
      have := Int.le_of_dvd (by omega) hdvd1
      omega
  by_cases hdvd : pyRound (rate / r) ∣ (k : ℤ)
  · obtain ⟨t, ht, hs⟩ := hcomp.2.2 (hiff.mpr hdvd)
    refine ⟨t, ?_, iff_of_true hs hdvd, fun h => absurd hdvd h⟩
    rw [htelget]
    exact ht
  · have hclt2 : ((k - 1 : ℕ) : ℤ) % pyRound (rate / r) + 1 < pyRound (rate / r) :=
      not_le.mp (fun hle => hdvd (hiff.mp hle))
    obtain ⟨ht, -⟩ := hcomp.2.1 hclt2
    refine ⟨_, ?_, ?_, fun _ => rfl⟩
    · rw [htelget]
      exact ht
    · exact iff_of_false (by simp) hdvd

theorem execution_rate_decimation_spec_witness :
    max 1 (pyRound ((100 : ℚ) / 30)) = pyRound ((100 : ℚ) / 30) ∧
    ∃ t : Telem,
      ((runCycles mfZero {} 100 3 (mgrRate, [])).2.2.get? (3 - 1)).bind
          (fun tl => tl.get? 0) = some t ∧
      (t.skipped = false ↔ pyRound ((100 : ℚ) / 30) ∣ ((3 : ℕ) : ℤ)) ∧
      (¬ pyRound ((100 : ℚ) / 30) ∣ ((3 : ℕ) : ℤ) →
        t = { ((cycleState mfZero {} 100 (3 - 1) (mgrRate, [])).1.last_telemetry.get?
                0).getD {}
              with skipped := true }) :=
  execution_rate_decimation_spec mfZero {} 100 mgrRate [] 0 ⟨"R", true, "7", some 30⟩ 30
    rfl rfl rfl (by norm_num) (by norm_num) (by decide) rfl 3 3 (by decide) (by decide)

end MccHub
